import Mathlib

/-!
Verification of the Stride run-sync pipeline and leaderboard engine.

The definitions below are a shallow embedding of the Python services in
src/app (leaderboard_service.py, achievement_service.py, challenge_service.py,
event_service.py, shoe_service.py, social_service.py and routes/runs.py).
Machine floats are modelled by rationals, UUIDs by naturals, datetimes by a
record carrying the projections the code actually uses (a linear timestamp,
the calendar day and the year), and SQL tables by lists of row records.
-/

namespace Stride

/-- Python datetime, reduced to the three projections the code uses:
a linearly ordered timestamp (datetime comparisons), the calendar day
(datetime.date, with day subtraction giving the day difference), and the
calendar year (SQL extract year). -/
structure PyDateTime where
  ts : Int
  day : Int
  year : Int
deriving DecidableEq

/- Python dates are reduced to calendar day numbers of type Int; date
subtraction in days is integer subtraction. -/

/-- One entry of the per-kilometer split table. The source stores a JSON
object with a kilometer index and a cumulative time string; the time field
here carries the result of parsing that string with parse time to seconds
(none when the string is missing or unparseable). -/
structure Split where
  kilometer : Int
  time : Option Int
deriving DecidableEq

/-- Relation used to sort splits by their kilometer index
(sorted with key kilometer in the source). -/
def splitKmLe (a b : Split) : Prop := a.kilometer ≤ b.kilometer

instance : DecidableRel splitKmLe := fun a b => inferInstanceAs (Decidable (a.kilometer ≤ b.kilometer))

/-- Sort the split list by kilometer index, as the source does before
reading the cumulative series. -/
def sortByKm (splits : List Split) : List Split :=
  List.insertionSort splitKmLe splits

/-- Collect the cumulative times of the splits; none as soon as any
split failed to parse. -/
def cumulativeTimes : List Split → Option (List Int)
  | [] => some []
  | s :: rest =>
    match s.time with
    | none => none
    | some t => (cumulativeTimes rest).map (fun l => t :: l)

/-- Elapsed time of the window of target consecutive kilometers starting at
a given index: the cumulative time at the window end, minus the cumulative
time just before the window start when the window does not start at 0. -/
def windowCost (cum : List Int) (targetKm : Nat) (start : Nat) : Int :=
  let e := start + targetKm - 1
  if start = 0 then cum.getD e 0
  else cum.getD e 0 - cum.getD (start - 1) 0

/-- One step of the best-window loop: adopt the window time when it is
positive and beats the best seen so far. -/
def stepBest (best : Option Int) (w : Int) : Option Int :=
  match best with
  | none => if 0 < w then some w else none
  | some b => if 0 < w ∧ w < b then some w else some b

/-- The loop of fastest consecutive time: slide the window start over all
valid positions, keeping the best positive window time. -/
def windowBest (cum : List Int) (targetKm : Nat) : Option Int :=
  (List.range (cum.length - targetKm + 1)).foldl
    (fun best i => stepBest best (windowCost cum targetKm i)) none

/-- Embedding of fastest consecutive time from leaderboard_service.py.
The argument is the parsed splits JSON (none when the JSON itself did not
parse, mirroring the json.loads failure branch). -/
def fastestConsecutiveTime (kmSplits : Option (List Split)) (targetKm : Nat) : Option Int :=
  match kmSplits with
  | none => none
  | some splits =>
    if splits.length < targetKm then none
    else
      match cumulativeTimes (sortByKm splits) with
      | none => none
      | some cum =>
        if cum.length < targetKm then none
        else windowBest cum targetKm

/-- Reference window cost, transcribed from the specification text: the
elapsed time for the window ending at index e is cumulative at e if the
window starts at 0, else cumulative at e minus cumulative at start minus
one. -/
def specWindowCost (cum : List Int) (targetKm : Nat) (start : Nat) : Int :=
  let e := start + targetKm - 1
  if start = 0 then cum.getD e 0
  else cum.getD e 0 - cum.getD (start - 1) 0

/-- The minimum strictly positive element of a list, none when there is no
positive element. -/
def minPositive (ws : List Int) : Option Int :=
  (ws.filter (fun w => decide (0 < w))).min?

/-- Reference split-timing extractor, transcribed from the specification
text: none when there are fewer than target entries or any split fails to
parse; otherwise the minimum positive window time over all windows of
exactly target consecutive kilometers of the cumulative series. -/
def specSplitExtractor (splits : List Split) (targetKm : Nat) : Option Int :=
  if splits.length < targetKm then none
  else
    match cumulativeTimes splits with
    | none => none
    | some cum =>
      minPositive ((List.range (cum.length - targetKm + 1)).map (specWindowCost cum targetKm))

/-- Merge two optional minima. -/
def optMin : Option Int → Option Int → Option Int
  | none, b => b
  | some a, none => some a
  | some a, some b => some (min a b)

lemma optMin_none_right (a : Option Int) : optMin a none = a := by
  cases a <;> rfl

lemma optMin_assoc (a b c : Option Int) : optMin (optMin a b) c = optMin a (optMin b c) := by
  cases a <;> cases b <;> cases c <;> simp [optMin, min_assoc]

lemma foldl_min_eq (l : List Int) : ∀ x : Int,
    l.foldl min x = match l.min? with | none => x | some m => min x m := by
  induction l with
  | nil => intro x; rfl
  | cons a t ih =>
    intro x
    have h1 : (a :: t).foldl min x = t.foldl min (min x a) := rfl
    have h2 : (a :: t).min? = some (t.foldl min a) := rfl
    rw [h1, ih (min x a), h2, ih a]
    cases t.min? with
    | none => simp
    | some m => simp [min_assoc]

lemma min?_cons (x : Int) (l : List Int) :
    (x :: l).min? = some (match l.min? with | none => x | some m => min x m) := by
  have h : (x :: l).min? = some (l.foldl min x) := rfl
  rw [h, foldl_min_eq]

lemma minPositive_cons (w : Int) (ws : List Int) :
    minPositive (w :: ws) = optMin (if 0 < w then some w else none) (minPositive ws) := by
  unfold minPositive
  rw [List.filter_cons]
  by_cases hw : 0 < w
  · rw [if_pos (by simpa using hw), if_pos hw, min?_cons]
    cases hmin : (ws.filter (fun v => decide (0 < v))).min? with
    | none => simp [optMin]
    | some m => simp [optMin]
  · rw [if_neg (by simpa using hw), if_neg hw]
    cases hmin : (ws.filter (fun v => decide (0 < v))).min? with
    | none => simp [optMin]
    | some m => simp [optMin]

lemma stepBest_eq_optMin (b : Option Int) (w : Int) :
    stepBest b w = optMin b (if 0 < w then some w else none) := by
  cases b with
  | none =>
    by_cases hw : 0 < w <;> simp [stepBest, optMin, hw]
  | some x =>
    by_cases hw : 0 < w
    · by_cases hlt : w < x
      · simp [stepBest, optMin, hw, hlt, min_eq_right (le_of_lt hlt)]
      · simp [stepBest, optMin, hw, hlt, min_eq_left (not_lt.mp hlt)]
    · simp [stepBest, optMin, hw]

lemma foldl_stepBest (f : Nat → Int) (idxs : List Nat) (b : Option Int) :
    idxs.foldl (fun best i => stepBest best (f i)) b = optMin b (minPositive (idxs.map f)) := by
  induction idxs generalizing b with
  | nil => simp [minPositive, optMin_none_right]
  | cons i rest ih =>
    have h : (i :: rest).foldl (fun best j => stepBest best (f j)) b
        = rest.foldl (fun best j => stepBest best (f j)) (stepBest b (f i)) := rfl
    rw [h, ih (stepBest b (f i)), List.map_cons, minPositive_cons,
      stepBest_eq_optMin, optMin_assoc]

lemma cumulativeTimes_length : ∀ {l : List Split} {c : List Int},
    cumulativeTimes l = some c → c.length = l.length := by
  intro l
  induction l with
  | nil => intro c h; simp [cumulativeTimes] at h; simp [← h]
  | cons s rest ih =>
    intro c h
    unfold cumulativeTimes at h
    cases hs : s.time with
    | none => rw [hs] at h; exact absurd h (by simp)
    | some t =>
      rw [hs] at h
      cases hr : cumulativeTimes rest with
      | none => rw [hr] at h; exact absurd h (by simp)
      | some c' =>
        rw [hr] at h
        have hc : t :: c' = c := by simpa using h
        subst hc
        simp [ih hr]

lemma windowCost_eq_spec (cum : List Int) (targetKm : Nat) (i : Nat) :
    windowCost cum targetKm i = specWindowCost cum targetKm i := rfl

lemma windowBest_eq_minPositive (cum : List Int) (targetKm : Nat) :
    windowBest cum targetKm
      = minPositive ((List.range (cum.length - targetKm + 1)).map (specWindowCost cum targetKm)) := by
  unfold windowBest
  rw [foldl_stepBest]
  rfl

/-- The concrete split table of the specification scenario: cumulative
times 300, 600, 900, 1200, 1500 seconds at kilometers 1 to 5. -/
def scenarioSplits : List Split :=
  [⟨1, some 300⟩, ⟨2, some 600⟩, ⟨3, some 900⟩, ⟨4, some 1200⟩, ⟨5, some 1500⟩]

lemma fastestConsecutiveTime_eq_spec (splits : List Split) (targetKm : Nat)
    (hsorted : List.Sorted splitKmLe splits) :
    fastestConsecutiveTime (some splits) targetKm = specSplitExtractor splits targetKm := by
  unfold fastestConsecutiveTime specSplitExtractor sortByKm
  dsimp only
  rw [List.Sorted.insertionSort_eq hsorted]
  by_cases hlen : splits.length < targetKm
  · simp [hlen]
  · simp only [if_neg hlen]
    cases hct : cumulativeTimes splits with
    | none => rfl
    | some cum =>
      have hl : cum.length = splits.length := cumulativeTimes_length hct
      have hcl : ¬ cum.length < targetKm := by rw [hl]; exact hlen
      simp only [if_neg hcl]
      exact windowBest_eq_minPositive cum targetKm

/-- C2: the split-timing extractor of the source equals the reference
definition from the specification on every split list ordered by kilometer
and every positive whole-kilometer target: none when there are fewer than
target entries or any split fails to parse, else the minimum strictly
positive window time over windows of exactly target consecutive
kilometers; in particular, on cumulative splits 300, 600, 900, 1200, 1500
with target 5 it returns 1500. -/
theorem c2_split_extractor_refinement (splits : List Split) (targetKm : Nat)
    (hsorted : List.Sorted splitKmLe splits) (hpos : 0 < targetKm) :
    fastestConsecutiveTime (some splits) targetKm = specSplitExtractor splits targetKm ∧
    fastestConsecutiveTime (some scenarioSplits) 5 = some 1500 :=
  ⟨fastestConsecutiveTime_eq_spec splits targetKm hsorted, by decide⟩

/-- Witness for C2 at the concrete scenario input. -/
theorem c2_split_extractor_refinement_witness :
    fastestConsecutiveTime (some scenarioSplits) 5 = specSplitExtractor scenarioSplits 5 ∧
    fastestConsecutiveTime (some scenarioSplits) 5 = some 1500 :=
  c2_split_extractor_refinement scenarioSplits 5 (by decide) (by decide)

/-! ## Data model

Row records for the relational tables of src/app/models, with floats as
rationals and UUID columns as naturals. -/

/-- Python date restricted to its year, month, day fields, used for the
date-of-birth strings and the age-group bounds. -/
structure PDate where
  y : Int
  m : Int
  d : Int
deriving DecidableEq

/-- ISO-date-string comparison, which on well-formed dates is the
lexicographic comparison of year, month, day. -/
def pdLeb (a b : PDate) : Bool :=
  decide (a.y < b.y) || (a.y == b.y && (decide (a.m < b.m) || (a.m == b.m && decide (a.d ≤ b.d))))

/-- A row of the users table (the columns the core pipeline reads). -/
structure UserRow where
  id : Nat
  name : Option String
  displayName : Option String
  profilePhotoBase64 : Option String
  dateOfBirth : Option PDate
  gender : Option String
  leaderboardOptIn : Bool
deriving DecidableEq

/-- A row of the runs table. -/
structure RunRow where
  id : Nat
  userId : Nat
  completedAt : PyDateTime
  distanceKm : Rat
  durationSeconds : Rat
  avgPaceSecPerKm : Rat
  kmSplits : Option (List Split)
  feedbackRating : Option Int
  notes : Option String
  plannedWorkoutTitle : Option String
  plannedWorkoutType : Option String
  plannedDistanceKm : Option Rat
  completionScore : Option Int
  planName : Option String
  weekNumber : Option Int
  dataSource : String
  treadmillBrand : Option String
  shoeId : Option Nat
  isLeaderboardEligible : Bool
  syncedAt : PyDateTime
deriving DecidableEq

/-- A single run payload of the batch sync request. -/
structure RunPayload where
  id : Nat
  completedAt : PyDateTime
  distanceKm : Rat
  durationSeconds : Rat
  avgPaceSecPerKm : Rat
  kmSplits : Option (List Split)
  feedbackRating : Option Int
  notes : Option String
  plannedWorkoutTitle : Option String
  plannedWorkoutType : Option String
  plannedDistanceKm : Option Rat
  completionScore : Option Int
  planName : Option String
  weekNumber : Option Int
  dataSource : String
  treadmillBrand : Option String
  shoeId : Option Nat
deriving DecidableEq

/-- A row of the personal-bests table. -/
structure PBRow where
  userId : Nat
  distanceCategory : String
  timeSeconds : Int
  achievedAt : PyDateTime
  runId : Nat
deriving DecidableEq

/-- A row of the user-streaks table. The two date columns are nullable
date strings in the source, modelled as optional calendar days. -/
structure StreakRow where
  userId : Nat
  currentStreakDays : Int
  longestStreakDays : Int
  lastRunDate : Option Int
  streakStartDate : Option Int
deriving DecidableEq

/-- A row of the achievement-definitions table. -/
structure AchDef where
  id : String
  category : String
  title : String
  description : String
  icon : String
  threshold : Int
  tier : String
  sortOrder : Int
deriving DecidableEq

/-- A row of the user-achievements table. -/
structure UARow where
  userId : Nat
  achievementId : String
  runId : Nat
  unlockedAt : PyDateTime
  notified : String
deriving DecidableEq

/-- The serializable achievement summary returned to the client. -/
structure AchSummary where
  id : String
  category : String
  title : String
  description : String
  icon : String
  tier : String
deriving DecidableEq

/-- A row of the challenges table. -/
structure ChallengeRow where
  id : Nat
  title : String
  challengeType : String
  distanceCategory : Option String
  cumulativeTargetKm : Option Rat
  startsAt : PyDateTime
  endsAt : PyDateTime
  autoGenerated : Bool
  seriesId : Option String
deriving DecidableEq

/-- A row of the challenge-participations table. -/
structure ChallengePartRow where
  userId : Nat
  challengeId : Nat
  bestTimeSeconds : Option Int
  bestRunId : Option Nat
  totalDistanceKm : Option Rat
deriving DecidableEq

/-- A row of the events table (the columns participation matching reads). -/
structure EventRow where
  id : Nat
  eventType : String
  distanceKm : Option Rat
  startsAt : PyDateTime
  endsAt : PyDateTime
  isActive : Bool
deriving DecidableEq

/-- A row of the event-registrations table. -/
structure EventRegRow where
  userId : Nat
  eventId : Nat
  status : String
  bestTimeSeconds : Option Int
  bestRunId : Option Nat
  totalDistanceKm : Option Rat
deriving DecidableEq

/-- A row of the shoes table (the columns mileage accumulation reads). -/
structure ShoeRow where
  id : Nat
  userId : Nat
  totalDistanceKm : Rat
  isDefault : Bool
deriving DecidableEq

/-- The structured payload stored with an activity-log entry
(json.dumps of the dict passed by each call site). -/
inductive ActivityPayload where
  | runLog (distanceKm : Rat) (durationSeconds : Rat)
  | pb (category : String) (timeSeconds : Int)
  | achievement (title : String) (icon : String) (tier : String)
deriving DecidableEq

/-- A row of the activity-log table. -/
structure ActivityRow where
  userId : Nat
  activityType : String
  referenceId : Option Nat
  activityData : Option ActivityPayload
deriving DecidableEq

/-- The relational store: one list of rows per table. -/
structure DB where
  users : List UserRow
  runs : List RunRow
  personalBests : List PBRow
  streaks : List StreakRow
  achievementDefs : List AchDef
  userAchievements : List UARow
  challenges : List ChallengeRow
  challengeParts : List ChallengePartRow
  events : List EventRow
  eventRegs : List EventRegRow
  shoes : List ShoeRow
  activityLog : List ActivityRow
deriving DecidableEq

/-- The batch sync response: synced count, already-existed count, newly
unlocked achievement summaries. -/
structure SyncResponse where
  syncedCount : Nat
  alreadyExisted : Nat
  newlyUnlocked : List AchSummary
deriving DecidableEq

/-! ## Personal-best computation (leaderboard_service.py) -/

/-- The distance categories and their target kilometers. -/
def distanceCategories : List (String × Nat) :=
  [("5K", 5), ("10K", 10), ("HM", 21), ("FM", 42), ("50K", 50)]

/-- The row predicate of the personal-best unique key
(user identifier and distance category). -/
def pbKeyPred (u : Nat) (cat : String) (r : PBRow) : Bool :=
  r.userId == u && r.distanceCategory == cat

/-- First personal-best row for a user and distance category. -/
def pbFind (db : DB) (u : Nat) (cat : String) : Option PBRow :=
  db.personalBests.find? (pbKeyPred u cat)

/-- Stored best time for a user and distance category. -/
def pbLookup (db : DB) (u : Nat) (cat : String) : Option Int :=
  (pbFind db u cat).map (·.timeSeconds)

/-- Append an activity-log row (log activity in social_service.py). -/
def logActivity (db : DB) (u : Nat) (ty : String) (ref : Option Nat)
    (payload : Option ActivityPayload) : DB :=
  { db with activityLog := db.activityLog ++ [⟨u, ty, ref, payload⟩] }

/-- The conditional personal-best upsert: insert when no row exists for the
user and category; update only when the stored time is strictly greater
than the new time. The Bool is the statement rowcount: true exactly when a
row was inserted or updated. -/
def pbUpsert (db : DB) (u : Nat) (cat : String) (t : Int) (achievedAt : PyDateTime)
    (rid : Nat) : DB × Bool :=
  match pbFind db u cat with
  | none =>
      ({ db with personalBests := db.personalBests ++ [⟨u, cat, t, achievedAt, rid⟩] }, true)
  | some existing =>
      if existing.timeSeconds > t then
        ({ db with personalBests := db.personalBests.map (fun r =>
            if pbKeyPred u cat r then
              { r with timeSeconds := t, achievedAt := achievedAt, runId := rid }
            else r) }, true)
      else (db, false)

/-- One iteration of the category loop of compute personal bests: run the
extractor for the category target, upsert on success, log a pb activity
when the upsert touched a row. -/
def pbCategoryStep (u rid : Nat) (kmSplits : Option (List Split)) (completedAt : PyDateTime)
    (db : DB) (c : String × Nat) : DB :=
  match fastestConsecutiveTime kmSplits c.2 with
  | none => db
  | some t =>
      let r := pbUpsert db u c.1 t completedAt rid
      if r.2 then logActivity r.1 u "pb" (some rid) (some (.pb c.1 t)) else r.1

/-- Embedding of compute personal bests: nothing unless the run is
leaderboard-eligible and has a split table; otherwise upsert every
distance category whose extraction succeeds. -/
def computePersonalBests (db : DB) (u rid : Nat) (kmSplits : Option (List Split))
    (completedAt : PyDateTime) (isEligible : Bool) : DB :=
  if !isEligible || kmSplits.isNone then db
  else distanceCategories.foldl (pbCategoryStep u rid kmSplits completedAt) db

/-! ## Streak and achievements (achievement_service.py) -/

/-- The streak row of a user, if any. -/
def streakFind (db : DB) (u : Nat) : Option StreakRow :=
  db.streaks.find? (fun s => s.userId == u)

/-- Embedding of update streak. Returns the store and the current streak
length after processing the run date. -/
def updateStreak (db : DB) (u : Nat) (runDate : Int) : DB × Int :=
  match streakFind db u with
  | none =>
      ({ db with streaks := db.streaks ++ [⟨u, 1, 1, some runDate, some runDate⟩] }, 1)
  | some s =>
      if s.lastRunDate = some runDate then (db, s.currentStreakDays)
      else
        let s1 :=
          match s.lastRunDate with
          | some lastRun =>
              if runDate - lastRun = 1 then
                { s with currentStreakDays := s.currentStreakDays + 1 }
              else if runDate - lastRun = 0 then s
              else { s with currentStreakDays := 1, streakStartDate := some runDate }
          | none => { s with currentStreakDays := 1, streakStartDate := some runDate }
        let s2 := { s1 with lastRunDate := some runDate }
        let s3 :=
          if s2.currentStreakDays > s2.longestStreakDays then
            { s2 with longestStreakDays := s2.currentStreakDays }
          else s2
        ({ db with streaks := db.streaks.map (fun r => if r.userId == u then s3 else r) },
          s3.currentStreakDays)

/-- Whether a user-achievement row exists for the pair. -/
def uaHas (db : DB) (u : Nat) (achId : String) : Bool :=
  db.userAchievements.any (fun r => r.userId == u && r.achievementId == achId)

/-- The conditional unlock insert: true exactly when a row was newly
inserted for the (user, achievement) pair. -/
def unlock (db : DB) (u : Nat) (achId : String) (rid : Nat) (unlockedAt : PyDateTime) :
    DB × Bool :=
  if uaHas db u achId then (db, false)
  else ({ db with userAchievements := db.userAchievements ++ [⟨u, achId, rid, unlockedAt, "false"⟩] },
        true)

/-- Convert a definition row to the summary dict of the sync response. -/
def defnToSummary (d : AchDef) : AchSummary :=
  ⟨d.id, d.category, d.title, d.description, d.icon, d.tier⟩

/-- The performance achievement to distance category mapping. -/
def perfCategoryMap : List (String × String) :=
  [("perf_5k_sub25", "5K"), ("perf_5k_sub20", "5K"),
   ("perf_10k_sub50", "10K"), ("perf_10k_sub40", "10K"),
   ("perf_hm_sub2h", "HM"), ("perf_hm_sub130", "HM"),
   ("perf_fm_sub4h", "FM"), ("perf_fm_sub3h", "FM")]

/-- Relation ordering achievement definitions by sort order
(the order-by clause of the definitions query). -/
def defSortLe (a b : AchDef) : Prop := a.sortOrder ≤ b.sortOrder

instance : DecidableRel defSortLe := fun a b => inferInstanceAs (Decidable (a.sortOrder ≤ b.sortOrder))

/-- One pass over the definitions: unlock every definition satisfying the
pass condition, appending a summary for each newly inserted row. -/
def unlockPass (u rid : Nat) (unlockedAt : PyDateTime) (cond : AchDef → Bool) :
    List AchDef → DB → List AchSummary → DB × List AchSummary
  | [], db, acc => (db, acc)
  | d :: rest, db, acc =>
      if cond d then
        let r := unlock db u d.id rid unlockedAt
        let acc2 := if r.2 then acc ++ [defnToSummary d] else acc
        unlockPass u rid unlockedAt cond rest r.1 acc2
      else unlockPass u rid unlockedAt cond rest db acc

/-- Lifetime summed distance of a user over all persisted runs. -/
def lifetimeKm (db : DB) (u : Nat) : Rat :=
  (db.runs.filter (fun r => r.userId == u)).foldl (fun acc r => acc + r.distanceKm) 0

/-- The dict of a user's personal bests keyed by category: the dict
comprehension lets the last row win on a duplicate category. -/
def userPbTimes (db : DB) (u : Nat) (cat : String) : Option Int :=
  (((db.personalBests.filter (fun r => r.userId == u)).reverse.find?
      (fun r => r.distanceCategory == cat))).map (·.timeSeconds)

/-- Pass condition for distance achievements. -/
def distanceCond (existingIds : List String) (lifetime : Rat) (d : AchDef) : Bool :=
  d.category == "distance" && !(existingIds.contains d.id) && decide ((d.threshold : Rat) ≤ lifetime)

/-- Pass condition for streak achievements. -/
def streakCond (existingIds : List String) (longest : Int) (d : AchDef) : Bool :=
  d.category == "streak" && !(existingIds.contains d.id) && decide (d.threshold ≤ longest)

/-- Pass condition for performance achievements. -/
def perfCond (existingIds : List String) (pbTimes : String → Option Int) (d : AchDef) : Bool :=
  d.category == "performance" && !(existingIds.contains d.id) &&
    (match (perfCategoryMap.find? (fun p => p.1 == d.id)).map (·.2) with
     | some cat =>
        match pbTimes cat with
        | some t => decide (t ≤ d.threshold)
        | none => false
     | none => false)

/-- Pass condition for milestone achievements. -/
def milestoneCond (existingIds : List String) (distanceKm : Rat) (d : AchDef) : Bool :=
  d.category == "milestone" && !(existingIds.contains d.id) &&
    (d.threshold == 0 || decide ((d.threshold : Rat) ≤ distanceKm))

/-- Embedding of check achievements after sync: snapshot the already
unlocked identifiers, then evaluate the four categories in order, with the
streak update between the distance and streak passes, and log an activity
for every newly unlocked achievement. -/
def checkAchievementsAfterSync (db : DB) (u rid : Nat) (distanceKm : Rat)
    (completedAt : PyDateTime) : DB × List AchSummary :=
  let existingIds := (db.userAchievements.filter (fun r => r.userId == u)).map (·.achievementId)
  let definitions := List.insertionSort defSortLe db.achievementDefs
  let lifetime := lifetimeKm db u
  let r1 := unlockPass u rid completedAt (distanceCond existingIds lifetime) definitions db []
  let runDate := completedAt.day
  let rs := updateStreak r1.1 u runDate
  let longest :=
    match streakFind rs.1 u with
    | some s => s.longestStreakDays
    | none => rs.2
  let r2 := unlockPass u rid completedAt (streakCond existingIds longest) definitions rs.1 r1.2
  let r3 := unlockPass u rid completedAt (perfCond existingIds (userPbTimes r2.1 u)) definitions
    r2.1 r2.2
  let r4 := unlockPass u rid completedAt (milestoneCond existingIds distanceKm) definitions
    r3.1 r3.2
  let db6 := r4.2.foldl
    (fun d a => logActivity d u "achievement" none (some (.achievement a.title a.icon a.tier))) r4.1
  (db6, r4.2)

/-! ## Challenge and event participation matching -/

/-- Datetime comparison (timestamp order). -/
def pdtLeb (a b : PyDateTime) : Bool := decide (a.ts ≤ b.ts)

/-- Target kilometers for an optional distance category
(the dict get of the source, where a missing or null key yields none). -/
def dcTarget (cat : Option String) : Option Nat :=
  match cat with
  | none => none
  | some c => (distanceCategories.find? (fun p => p.1 == c)).map (·.2)

/-- Apply one eligible run to a joined challenge participation row. -/
def applyChallengeRun (rid : Nat) (distanceKm : Rat) (kmSplits : Option (List Split))
    (c : ChallengeRow) (p : ChallengePartRow) : ChallengePartRow :=
  if c.challengeType == "weekly_race" then
    match dcTarget c.distanceCategory with
    | none => p
    | some target =>
        if decide (distanceKm < (target : Rat)) then p
        else
          match kmSplits with
          | none => p
          | some s =>
              match fastestConsecutiveTime (some s) target with
              | none => p
              | some t =>
                  match p.bestTimeSeconds with
                  | none => { p with bestTimeSeconds := some t, bestRunId := some rid }
                  | some b =>
                      if t < b then { p with bestTimeSeconds := some t, bestRunId := some rid }
                      else p
  else if c.challengeType == "monthly_distance" then
    { p with totalDistanceKm := some ((p.totalDistanceKm.getD 0) + distanceKm) }
  else p

/-- Embedding of check challenge participation: for eligible runs, update
every participation of the user whose parent challenge window contains the
run completion time. -/
def checkChallengeParticipation (db : DB) (u rid : Nat) (distanceKm : Rat)
    (kmSplits : Option (List Split)) (completedAt : PyDateTime) (isEligible : Bool) : DB :=
  if !isEligible then db
  else
    { db with challengeParts := db.challengeParts.map (fun p =>
        if p.userId == u then
          match db.challenges.find? (fun c => c.id == p.challengeId) with
          | some c =>
              if pdtLeb c.startsAt completedAt && pdtLeb completedAt c.endsAt then
                applyChallengeRun rid distanceKm kmSplits c p
              else p
          | none => p
        else p) }

/-- Apply one eligible run to a joined event registration row. -/
def applyEventRun (rid : Nat) (distanceKm : Rat) (kmSplits : Option (List Split))
    (e : EventRow) (g : EventRegRow) : EventRegRow :=
  if e.eventType == "race" || e.eventType == "virtual_race" then
    match e.distanceKm with
    | none => g
    | some target =>
        if !(target == 0) && decide (target ≤ distanceKm) then
          let intTarget := target.floor.toNat
          match kmSplits with
          | none => g
          | some s =>
              match fastestConsecutiveTime (some s) intTarget with
              | none => g
              | some t =>
                  match g.bestTimeSeconds with
                  | none => { g with bestTimeSeconds := some t, bestRunId := some rid }
                  | some b =>
                      if t < b then { g with bestTimeSeconds := some t, bestRunId := some rid }
                      else g
        else g
  else if e.eventType == "group_run" then
    { g with totalDistanceKm := some ((g.totalDistanceKm.getD 0) + distanceKm) }
  else g

/-- Embedding of check event participation. -/
def checkEventParticipation (db : DB) (u rid : Nat) (distanceKm : Rat)
    (kmSplits : Option (List Split)) (completedAt : PyDateTime) (isEligible : Bool) : DB :=
  if !isEligible then db
  else
    { db with eventRegs := db.eventRegs.map (fun g =>
        if g.userId == u && g.status == "registered" then
          match db.events.find? (fun e => e.id == g.eventId) with
          | some e =>
              if pdtLeb e.startsAt completedAt && pdtLeb completedAt e.endsAt then
                applyEventRun rid distanceKm kmSplits e g
              else g
          | none => g
        else g) }

/-- Embedding of add mileage in shoe_service.py. -/
def shoeAddMileage (db : DB) (shoeId u : Nat) (distanceKm : Rat) : DB :=
  { db with shoes := db.shoes.map (fun s =>
      if s.id == shoeId && s.userId == u then
        { s with totalDistanceKm := s.totalDistanceKm + distanceKm }
      else s) }

/-! ## The sync orchestrator (routes/runs.py) -/

/-- Whether a run row with the identifier is already persisted. -/
def runExists (db : DB) (rid : Nat) : Bool :=
  db.runs.any (fun r => r.id == rid)

/-- The run row inserted for a payload. -/
def runRowOfPayload (u : Nat) (now : PyDateTime) (p : RunPayload) : RunRow :=
  { id := p.id, userId := u, completedAt := p.completedAt, distanceKm := p.distanceKm,
    durationSeconds := p.durationSeconds, avgPaceSecPerKm := p.avgPaceSecPerKm,
    kmSplits := p.kmSplits, feedbackRating := p.feedbackRating, notes := p.notes,
    plannedWorkoutTitle := p.plannedWorkoutTitle, plannedWorkoutType := p.plannedWorkoutType,
    plannedDistanceKm := p.plannedDistanceKm, completionScore := p.completionScore,
    planName := p.planName, weekNumber := p.weekNumber, dataSource := p.dataSource,
    treadmillBrand := p.treadmillBrand, shoeId := p.shoeId,
    isLeaderboardEligible := p.dataSource == "bluetooth_ftms", syncedAt := now }

/-- Process one payload of the batch: the conflict-free insert, then, only
when the row is newly persisted, the side-effect cascade in the order of
the source. Returns the store, whether the run was newly synced, and the
newly unlocked achievements. -/
def syncOne (db : DB) (u : Nat) (now : PyDateTime) (p : RunPayload) :
    DB × Bool × List AchSummary :=
  let isEligible := p.dataSource == "bluetooth_ftms"
  if runExists db p.id then (db, false, [])
  else
    let db1 := { db with runs := db.runs ++ [runRowOfPayload u now p] }
    let db2 := computePersonalBests db1 u p.id p.kmSplits p.completedAt isEligible
    let db3 := checkChallengeParticipation db2 u p.id p.distanceKm p.kmSplits p.completedAt
      isEligible
    let db4 := checkEventParticipation db3 u p.id p.distanceKm p.kmSplits p.completedAt
      isEligible
    let db5 :=
      match p.shoeId with
      | some sid => shoeAddMileage db4 sid u p.distanceKm
      | none => db4
    let db6 := logActivity db5 u "run" (some p.id) (some (.runLog p.distanceKm p.durationSeconds))
    let r := checkAchievementsAfterSync db6 u p.id p.distanceKm p.completedAt
    (r.1, true, r.2)

/-- Embedding of the sync endpoint body: process the batch run by run,
counting newly synced rows and aggregating unlocked achievements; the
already-existed count is the batch size minus the synced count. -/
def syncRuns (db : DB) (u : Nat) (now : PyDateTime) (payloads : List RunPayload) :
    DB × SyncResponse :=
  let st := payloads.foldl
    (fun (acc : DB × Nat × List AchSummary) p =>
      let r := syncOne acc.1 u now p
      (r.1, acc.2.1 + (if r.2.1 then 1 else 0), acc.2.2 ++ r.2.2))
    (db, 0, [])
  (st.1, ⟨st.2.1, payloads.length - st.2.1, st.2.2⟩)

/-- One sync request: the acting user, the request time, the batch. -/
structure SyncBatch where
  user : Nat
  now : PyDateTime
  payloads : List RunPayload
deriving DecidableEq

/-- Apply a sequence of sync requests to the store. -/
def applySyncs (db : DB) (batches : List SyncBatch) : DB :=
  batches.foldl (fun d b => (syncRuns d b.user b.now b.payloads).1) db

/-! ## General list helpers -/

lemma foldl_preserve {α β : Type _} (f : β → α → β) (P : β → Prop)
    (h : ∀ b a, P b → P (f b a)) : ∀ (l : List α) (b : β), P b → P (l.foldl f b) := by
  intro l
  induction l with
  | nil => intro b hb; exact hb
  | cons a t ih => intro b hb; exact ih _ (h b a hb)

lemma find?_append {α : Type _} (p : α → Bool) :
    ∀ l₁ l₂ : List α, (l₁ ++ l₂).find? p
      = match l₁.find? p with | some x => some x | none => l₂.find? p := by
  intro l₁
  induction l₁ with
  | nil => intro l₂; rfl
  | cons a t ih =>
    intro l₂
    by_cases ha : p a
    · simp [List.find?_cons, ha]
    · simp only [List.cons_append, List.find?_cons, Bool.not_eq_true] at *
      rw [ha]
      simpa [ha] using ih l₂

lemma find?_map_invariant {α : Type _} (f : α → α) (p : α → Bool)
    (h1 : ∀ x, p (f x) = p x) (h2 : ∀ x, p x = true → f x = x) :
    ∀ l : List α, (l.map f).find? p = l.find? p := by
  intro l
  induction l with
  | nil => rfl
  | cons a t ih =>
    by_cases ha : p a
    · simp [List.find?_cons, h1, ha, h2 a ha]
    · simp only [Bool.not_eq_true] at ha
      simp [List.find?_cons, h1, ha, ih]

lemma find?_map_ite {α : Type _} (p : α → Bool) (s3 : α) (hp : p s3 = true) :
    ∀ l : List α, (l.map (fun r => if p r then s3 else r)).find? p
      = (l.find? p).map (fun _ => s3) := by
  intro l
  induction l with
  | nil => rfl
  | cons a t ih =>
    by_cases ha : p a
    · simp [List.find?_cons, ha, hp]
    · simp only [Bool.not_eq_true] at ha
      simp [List.find?_cons, ha, ih]


/-! ## Frame lemmas: which tables each operation leaves untouched -/

lemma logActivity_runs (db : DB) (u : Nat) (ty : String) (ref : Option Nat)
    (payload : Option ActivityPayload) : (logActivity db u ty ref payload).runs = db.runs := rfl

lemma logActivity_personalBests (db : DB) (u : Nat) (ty : String) (ref : Option Nat)
    (payload : Option ActivityPayload) :
    (logActivity db u ty ref payload).personalBests = db.personalBests := rfl

lemma logActivity_userAchievements (db : DB) (u : Nat) (ty : String) (ref : Option Nat)
    (payload : Option ActivityPayload) :
    (logActivity db u ty ref payload).userAchievements = db.userAchievements := rfl

lemma logActivity_log (db : DB) (u : Nat) (ty : String) (ref : Option Nat)
    (payload : Option ActivityPayload) :
    (logActivity db u ty ref payload).activityLog = db.activityLog ++ [⟨u, ty, ref, payload⟩] := rfl

lemma pbUpsert_runs (db : DB) (u : Nat) (cat : String) (t : Int) (a : PyDateTime) (rid : Nat) :
    ((pbUpsert db u cat t a rid).1).runs = db.runs := by
  unfold pbUpsert
  split
  · rfl
  · split <;> rfl

lemma pbUpsert_userAchievements (db : DB) (u : Nat) (cat : String) (t : Int) (a : PyDateTime)
    (rid : Nat) : ((pbUpsert db u cat t a rid).1).userAchievements = db.userAchievements := by
  unfold pbUpsert
  split
  · rfl
  · split <;> rfl

lemma pbUpsert_log (db : DB) (u : Nat) (cat : String) (t : Int) (a : PyDateTime) (rid : Nat) :
    ((pbUpsert db u cat t a rid).1).activityLog = db.activityLog := by
  unfold pbUpsert
  split
  · rfl
  · split <;> rfl

lemma pbCategoryStep_runs (u rid : Nat) (kmSplits : Option (List Split))
    (completedAt : PyDateTime) (db : DB) (c : String × Nat) :
    (pbCategoryStep u rid kmSplits completedAt db c).runs = db.runs := by
  unfold pbCategoryStep
  split
  · rfl
  · dsimp only
    split
    · rw [logActivity_runs, pbUpsert_runs]
    · rw [pbUpsert_runs]

lemma pbCategoryStep_userAchievements (u rid : Nat) (kmSplits : Option (List Split))
    (completedAt : PyDateTime) (db : DB) (c : String × Nat) :
    (pbCategoryStep u rid kmSplits completedAt db c).userAchievements = db.userAchievements := by
  unfold pbCategoryStep
  split
  · rfl
  · dsimp only
    split
    · rw [logActivity_userAchievements, pbUpsert_userAchievements]
    · rw [pbUpsert_userAchievements]

lemma computePersonalBests_runs (db : DB) (u rid : Nat) (kmSplits : Option (List Split))
    (completedAt : PyDateTime) (isEligible : Bool) :
    (computePersonalBests db u rid kmSplits completedAt isEligible).runs = db.runs := by
  unfold computePersonalBests
  split
  · rfl
  · exact foldl_preserve (pbCategoryStep u rid kmSplits completedAt) (fun d => d.runs = db.runs)
      (fun b c hb => by
        show (pbCategoryStep u rid kmSplits completedAt b c).runs = db.runs
        rw [pbCategoryStep_runs]; exact hb) distanceCategories db rfl

lemma computePersonalBests_userAchievements (db : DB) (u rid : Nat)
    (kmSplits : Option (List Split)) (completedAt : PyDateTime) (isEligible : Bool) :
    (computePersonalBests db u rid kmSplits completedAt isEligible).userAchievements
      = db.userAchievements := by
  unfold computePersonalBests
  split
  · rfl
  · exact foldl_preserve (pbCategoryStep u rid kmSplits completedAt)
      (fun d => d.userAchievements = db.userAchievements)
      (fun b c hb => by
        show (pbCategoryStep u rid kmSplits completedAt b c).userAchievements = db.userAchievements
        rw [pbCategoryStep_userAchievements]; exact hb) distanceCategories db rfl

lemma updateStreak_runs (db : DB) (u : Nat) (runDate : Int) :
    ((updateStreak db u runDate).1).runs = db.runs := by
  unfold updateStreak
  split
  · rfl
  · split <;> rfl

lemma updateStreak_personalBests (db : DB) (u : Nat) (runDate : Int) :
    ((updateStreak db u runDate).1).personalBests = db.personalBests := by
  unfold updateStreak
  split
  · rfl
  · split <;> rfl

lemma updateStreak_userAchievements (db : DB) (u : Nat) (runDate : Int) :
    ((updateStreak db u runDate).1).userAchievements = db.userAchievements := by
  unfold updateStreak
  split
  · rfl
  · split <;> rfl

lemma updateStreak_log (db : DB) (u : Nat) (runDate : Int) :
    ((updateStreak db u runDate).1).activityLog = db.activityLog := by
  unfold updateStreak
  split
  · rfl
  · split <;> rfl

lemma unlock_runs (db : DB) (u : Nat) (achId : String) (rid : Nat) (ua : PyDateTime) :
    ((unlock db u achId rid ua).1).runs = db.runs := by
  unfold unlock
  split <;> rfl

lemma unlock_personalBests (db : DB) (u : Nat) (achId : String) (rid : Nat) (ua : PyDateTime) :
    ((unlock db u achId rid ua).1).personalBests = db.personalBests := by
  unfold unlock
  split <;> rfl

lemma unlock_streaks (db : DB) (u : Nat) (achId : String) (rid : Nat) (ua : PyDateTime) :
    ((unlock db u achId rid ua).1).streaks = db.streaks := by
  unfold unlock
  split <;> rfl

lemma unlock_log (db : DB) (u : Nat) (achId : String) (rid : Nat) (ua : PyDateTime) :
    ((unlock db u achId rid ua).1).activityLog = db.activityLog := by
  unfold unlock
  split <;> rfl

lemma unlockPass_runs (u rid : Nat) (ua : PyDateTime) (cond : AchDef → Bool) :
    ∀ (defs : List AchDef) (db : DB) (acc : List AchSummary),
      ((unlockPass u rid ua cond defs db acc).1).runs = db.runs := by
  intro defs
  induction defs with
  | nil => intro db acc; rfl
  | cons d rest ih =>
    intro db acc
    unfold unlockPass
    split
    · rw [ih, unlock_runs]
    · exact ih db acc

lemma unlockPass_personalBests (u rid : Nat) (ua : PyDateTime) (cond : AchDef → Bool) :
    ∀ (defs : List AchDef) (db : DB) (acc : List AchSummary),
      ((unlockPass u rid ua cond defs db acc).1).personalBests = db.personalBests := by
  intro defs
  induction defs with
  | nil => intro db acc; rfl
  | cons d rest ih =>
    intro db acc
    unfold unlockPass
    split
    · rw [ih, unlock_personalBests]
    · exact ih db acc

lemma unlockPass_streaks (u rid : Nat) (ua : PyDateTime) (cond : AchDef → Bool) :
    ∀ (defs : List AchDef) (db : DB) (acc : List AchSummary),
      ((unlockPass u rid ua cond defs db acc).1).streaks = db.streaks := by
  intro defs
  induction defs with
  | nil => intro db acc; rfl
  | cons d rest ih =>
    intro db acc
    unfold unlockPass
    split
    · rw [ih, unlock_streaks]
    · exact ih db acc

lemma unlockPass_log (u rid : Nat) (ua : PyDateTime) (cond : AchDef → Bool) :
    ∀ (defs : List AchDef) (db : DB) (acc : List AchSummary),
      ((unlockPass u rid ua cond defs db acc).1).activityLog = db.activityLog := by
  intro defs
  induction defs with
  | nil => intro db acc; rfl
  | cons d rest ih =>
    intro db acc
    unfold unlockPass
    split
    · rw [ih, unlock_log]
    · exact ih db acc

lemma achLogFold_runs (u : Nat) (l : List AchSummary) (db : DB) :
    (l.foldl (fun d a => logActivity d u "achievement" none
      (some (.achievement a.title a.icon a.tier))) db).runs = db.runs :=
  foldl_preserve _ (fun d => d.runs = db.runs)
    (fun b a hb => by
      show (logActivity b u "achievement" none
        (some (.achievement a.title a.icon a.tier))).runs = db.runs
      rw [logActivity_runs]; exact hb)
    l db rfl

lemma achLogFold_personalBests (u : Nat) (l : List AchSummary) (db : DB) :
    (l.foldl (fun d a => logActivity d u "achievement" none
      (some (.achievement a.title a.icon a.tier))) db).personalBests = db.personalBests :=
  foldl_preserve _ (fun d => d.personalBests = db.personalBests)
    (fun b a hb => by
      show (logActivity b u "achievement" none
        (some (.achievement a.title a.icon a.tier))).personalBests = db.personalBests
      rw [logActivity_personalBests]; exact hb) l db rfl

lemma achLogFold_userAchievements (u : Nat) (l : List AchSummary) (db : DB) :
    (l.foldl (fun d a => logActivity d u "achievement" none
      (some (.achievement a.title a.icon a.tier))) db).userAchievements = db.userAchievements :=
  foldl_preserve _ (fun d => d.userAchievements = db.userAchievements)
    (fun b a hb => by
      show (logActivity b u "achievement" none
        (some (.achievement a.title a.icon a.tier))).userAchievements = db.userAchievements
      rw [logActivity_userAchievements]; exact hb) l db rfl

lemma achLogFold_log (u : Nat) :
    ∀ (l : List AchSummary) (db : DB),
      (l.foldl (fun d a => logActivity d u "achievement" none
        (some (.achievement a.title a.icon a.tier))) db).activityLog
      = db.activityLog ++ l.map (fun a =>
          ⟨u, "achievement", none, some (.achievement a.title a.icon a.tier)⟩) := by
  intro l
  induction l with
  | nil => intro db; simp
  | cons a t ih =>
    intro db
    have h1 : ((a :: t).foldl (fun d a => logActivity d u "achievement" none
        (some (.achievement a.title a.icon a.tier))) db)
        = t.foldl (fun d a => logActivity d u "achievement" none
            (some (.achievement a.title a.icon a.tier)))
          (logActivity db u "achievement" none (some (.achievement a.title a.icon a.tier))) := rfl
    rw [h1, ih, logActivity_log]
    simp

lemma checkAchievements_runs (db : DB) (u rid : Nat) (distanceKm : Rat)
    (completedAt : PyDateTime) :
    ((checkAchievementsAfterSync db u rid distanceKm completedAt).1).runs = db.runs := by
  unfold checkAchievementsAfterSync
  simp only
  rw [achLogFold_runs, unlockPass_runs, unlockPass_runs, unlockPass_runs, updateStreak_runs,
    unlockPass_runs]

lemma checkAchievements_personalBests (db : DB) (u rid : Nat) (distanceKm : Rat)
    (completedAt : PyDateTime) :
    ((checkAchievementsAfterSync db u rid distanceKm completedAt).1).personalBests
      = db.personalBests := by
  unfold checkAchievementsAfterSync
  simp only
  rw [achLogFold_personalBests, unlockPass_personalBests, unlockPass_personalBests,
    unlockPass_personalBests, updateStreak_personalBests, unlockPass_personalBests]

lemma checkChallenge_runs (db : DB) (u rid : Nat) (distanceKm : Rat)
    (kmSplits : Option (List Split)) (completedAt : PyDateTime) (isEligible : Bool) :
    (checkChallengeParticipation db u rid distanceKm kmSplits completedAt isEligible).runs
      = db.runs := by
  unfold checkChallengeParticipation
  split <;> rfl

lemma checkChallenge_personalBests (db : DB) (u rid : Nat) (distanceKm : Rat)
    (kmSplits : Option (List Split)) (completedAt : PyDateTime) (isEligible : Bool) :
    (checkChallengeParticipation db u rid distanceKm kmSplits completedAt
      isEligible).personalBests = db.personalBests := by
  unfold checkChallengeParticipation
  split <;> rfl

lemma checkChallenge_userAchievements (db : DB) (u rid : Nat) (distanceKm : Rat)
    (kmSplits : Option (List Split)) (completedAt : PyDateTime) (isEligible : Bool) :
    (checkChallengeParticipation db u rid distanceKm kmSplits completedAt
      isEligible).userAchievements = db.userAchievements := by
  unfold checkChallengeParticipation
  split <;> rfl

lemma checkChallenge_log (db : DB) (u rid : Nat) (distanceKm : Rat)
    (kmSplits : Option (List Split)) (completedAt : PyDateTime) (isEligible : Bool) :
    (checkChallengeParticipation db u rid distanceKm kmSplits completedAt
      isEligible).activityLog = db.activityLog := by
  unfold checkChallengeParticipation
  split <;> rfl

lemma checkEvent_runs (db : DB) (u rid : Nat) (distanceKm : Rat)
    (kmSplits : Option (List Split)) (completedAt : PyDateTime) (isEligible : Bool) :
    (checkEventParticipation db u rid distanceKm kmSplits completedAt isEligible).runs
      = db.runs := by
  unfold checkEventParticipation
  split <;> rfl

lemma checkEvent_personalBests (db : DB) (u rid : Nat) (distanceKm : Rat)
    (kmSplits : Option (List Split)) (completedAt : PyDateTime) (isEligible : Bool) :
    (checkEventParticipation db u rid distanceKm kmSplits completedAt isEligible).personalBests
      = db.personalBests := by
  unfold checkEventParticipation
  split <;> rfl

lemma checkEvent_userAchievements (db : DB) (u rid : Nat) (distanceKm : Rat)
    (kmSplits : Option (List Split)) (completedAt : PyDateTime) (isEligible : Bool) :
    (checkEventParticipation db u rid distanceKm kmSplits completedAt
      isEligible).userAchievements = db.userAchievements := by
  unfold checkEventParticipation
  split <;> rfl

lemma checkEvent_log (db : DB) (u rid : Nat) (distanceKm : Rat)
    (kmSplits : Option (List Split)) (completedAt : PyDateTime) (isEligible : Bool) :
    (checkEventParticipation db u rid distanceKm kmSplits completedAt isEligible).activityLog
      = db.activityLog := by
  unfold checkEventParticipation
  split <;> rfl

lemma shoeAddMileage_runs (db : DB) (shoeId u : Nat) (distanceKm : Rat) :
    (shoeAddMileage db shoeId u distanceKm).runs = db.runs := rfl

lemma shoeAddMileage_personalBests (db : DB) (shoeId u : Nat) (distanceKm : Rat) :
    (shoeAddMileage db shoeId u distanceKm).personalBests = db.personalBests := rfl

lemma shoeAddMileage_userAchievements (db : DB) (shoeId u : Nat) (distanceKm : Rat) :
    (shoeAddMileage db shoeId u distanceKm).userAchievements = db.userAchievements := rfl

lemma shoeAddMileage_log (db : DB) (shoeId u : Nat) (distanceKm : Rat) :
    (shoeAddMileage db shoeId u distanceKm).activityLog = db.activityLog := rfl

/-! ## C1: idempotent resync -/

lemma syncOne_dup (db : DB) (u : Nat) (now : PyDateTime) (p : RunPayload)
    (h : runExists db p.id = true) : syncOne db u now p = (db, false, []) := by
  unfold syncOne
  rw [if_pos h]

lemma syncRuns_single_dup (db : DB) (u : Nat) (now : PyDateTime) (p : RunPayload)
    (h : runExists db p.id = true) : syncRuns db u now [p] = (db, ⟨0, 1, []⟩) := by
  unfold syncRuns
  simp only [List.foldl_cons, List.foldl_nil, syncOne_dup db u now p h]
  rfl

lemma shoeStep_runs (u : Nat) (p : RunPayload) (d : DB) :
    (match p.shoeId with
      | some sid => shoeAddMileage d sid u p.distanceKm
      | none => d).runs = d.runs := by
  cases p.shoeId with
  | none => rfl
  | some sid => exact shoeAddMileage_runs d sid u p.distanceKm

lemma syncOne_fresh_runs (db : DB) (u : Nat) (now : PyDateTime) (p : RunPayload)
    (h : ¬ runExists db p.id = true) :
    ((syncOne db u now p).1).runs = db.runs ++ [runRowOfPayload u now p] := by
  unfold syncOne
  rw [if_neg h]
  dsimp only
  rw [checkAchievements_runs, logActivity_runs, shoeStep_runs, checkEvent_runs,
    checkChallenge_runs, computePersonalBests_runs]

lemma runExists_after_syncOne (db : DB) (u : Nat) (now : PyDateTime) (p : RunPayload) :
    runExists ((syncOne db u now p).1) p.id = true := by
  by_cases h : runExists db p.id = true
  · rw [syncOne_dup db u now p h]
    exact h
  · unfold runExists
    rw [syncOne_fresh_runs db u now p h]
    simp [runRowOfPayload]

lemma runExists_after_syncRuns_single (db : DB) (u : Nat) (now : PyDateTime) (p : RunPayload) :
    runExists ((syncRuns db u now [p]).1) p.id = true := by
  unfold syncRuns
  simp only [List.foldl_cons, List.foldl_nil]
  exact runExists_after_syncOne db u now p

/-- C1: syncing a payload whose run identifier is already persisted leaves
the entire store unchanged and is counted as already existed, with no
achievements reported; consequently a second sync of the same single
payload always reports one already-existed run, zero synced runs, no
unlocks, and changes nothing. -/
theorem c1_idempotent_resync (db : DB) (u : Nat) (now : PyDateTime) (p : RunPayload)
    (h : runExists db p.id = true) :
    syncRuns db u now [p] = (db, ⟨0, 1, []⟩) ∧
    ∀ (db₀ : DB) (now₀ : PyDateTime),
      syncRuns ((syncRuns db₀ u now₀ [p]).1) u now [p]
        = (((syncRuns db₀ u now₀ [p]).1), ⟨0, 1, []⟩) := by
  refine ⟨syncRuns_single_dup db u now p h, ?_⟩
  intro db₀ now₀
  exact syncRuns_single_dup _ u now p (runExists_after_syncRuns_single db₀ u now₀ p)

/-- An empty store for concrete witnesses. -/
def emptyDB : DB := ⟨[], [], [], [], [], [], [], [], [], [], [], []⟩

/-- A concrete manual-source payload. -/
def manualPayload : RunPayload :=
  { id := 1, completedAt := ⟨100, 1, 2025⟩, distanceKm := 5, durationSeconds := 1500,
    avgPaceSecPerKm := 300, kmSplits := none, feedbackRating := none, notes := none,
    plannedWorkoutTitle := none, plannedWorkoutType := none, plannedDistanceKm := none,
    completionScore := none, planName := none, weekNumber := none, dataSource := "manual",
    treadmillBrand := none, shoeId := none }

/-- A concrete store already containing the run of manualPayload. -/
def dbWithRun1 : DB :=
  { emptyDB with runs := [runRowOfPayload 7 ⟨100, 1, 2025⟩ manualPayload] }

/-- Witness for C1 at a concrete persisted run. -/
theorem c1_idempotent_resync_witness :
    syncRuns dbWithRun1 7 ⟨200, 2, 2025⟩ [manualPayload] = (dbWithRun1, ⟨0, 1, []⟩) ∧
    ∀ (db₀ : DB) (now₀ : PyDateTime),
      syncRuns ((syncRuns db₀ 7 now₀ [manualPayload]).1) 7 ⟨200, 2, 2025⟩ [manualPayload]
        = (((syncRuns db₀ 7 now₀ [manualPayload]).1), ⟨0, 1, []⟩) :=
  c1_idempotent_resync dbWithRun1 7 ⟨200, 2, 2025⟩ manualPayload (by decide)

/-! ## C10: ineligible or splitless runs leave personal bests untouched -/

lemma computePersonalBests_gate (db : DB) (u rid : Nat) (kmSplits : Option (List Split))
    (completedAt : PyDateTime) (isEligible : Bool)
    (h : isEligible = false ∨ kmSplits = none) :
    computePersonalBests db u rid kmSplits completedAt isEligible = db := by
  unfold computePersonalBests
  rcases h with h | h <;> simp [h]

lemma shoeStep_personalBests (u : Nat) (p : RunPayload) (d : DB) :
    (match p.shoeId with
      | some sid => shoeAddMileage d sid u p.distanceKm
      | none => d).personalBests = d.personalBests := by
  cases p.shoeId with
  | none => rfl
  | some sid => exact shoeAddMileage_personalBests d sid u p.distanceKm

/-- C10: a sync of a run that is not device-verified (data source other
than bluetooth_ftms) or has no split table performs no personal-best
insert or update: the personal-bests table after the sync equals the one
before, and the personal-best computation itself returns the store
unchanged. -/
theorem c10_ineligible_run_pb_frame (db : DB) (u : Nat) (now : PyDateTime) (p : RunPayload)
    (h : ¬ p.dataSource = "bluetooth_ftms" ∨ p.kmSplits = none) :
    ((syncRuns db u now [p]).1).personalBests = db.personalBests ∧
    computePersonalBests db u p.id p.kmSplits p.completedAt (p.dataSource == "bluetooth_ftms")
      = db := by
  have hgate : (p.dataSource == "bluetooth_ftms") = false ∨ p.kmSplits = none := by
    rcases h with h | h
    · left; simpa using h
    · right; exact h
  constructor
  · unfold syncRuns
    simp only [List.foldl_cons, List.foldl_nil]
    by_cases hdup : runExists db p.id = true
    · rw [syncOne_dup db u now p hdup]
    · unfold syncOne
      rw [if_neg hdup]
      dsimp only
      rw [checkAchievements_personalBests, logActivity_personalBests, shoeStep_personalBests,
        checkEvent_personalBests, checkChallenge_personalBests,
        computePersonalBests_gate _ _ _ _ _ _ hgate]
  · exact computePersonalBests_gate _ _ _ _ _ _ hgate

/-- Witness for C10 at the concrete manual-source payload. -/
theorem c10_ineligible_run_pb_frame_witness :
    ((syncRuns emptyDB 7 ⟨100, 1, 2025⟩ [manualPayload]).1).personalBests
      = emptyDB.personalBests ∧
    computePersonalBests emptyDB 7 manualPayload.id manualPayload.kmSplits
      manualPayload.completedAt (manualPayload.dataSource == "bluetooth_ftms") = emptyDB :=
  c10_ineligible_run_pb_frame emptyDB 7 ⟨100, 1, 2025⟩ manualPayload (by decide)

/-! ## Personal-best upsert behaviour and monotonicity (C3, C9) -/

lemma find?_map_upd {α : Type _} (p : α → Bool) (g : α → α)
    (hg : ∀ x, p x = true → p (g x) = true) :
    ∀ l : List α, (l.map (fun r => if p r then g r else r)).find? p = (l.find? p).map g := by
  intro l
  induction l with
  | nil => rfl
  | cons a t ih =>
    by_cases ha : p a
    · simp [List.find?_cons, ha, hg a ha]
    · simp only [Bool.not_eq_true] at ha
      simp [List.find?_cons, ha, ih]

lemma pbKeyPred_true_iff (u : Nat) (cat : String) (r : PBRow) :
    pbKeyPred u cat r = true ↔ r.userId = u ∧ r.distanceCategory = cat := by
  unfold pbKeyPred
  simp

lemma pbKeyPred_upd (u' : Nat) (c' : String) (t : Int)
    (a : PyDateTime) (rid : Nat) (r : PBRow) :
    pbKeyPred u' c' { r with timeSeconds := t, achievedAt := a, runId := rid }
      = pbKeyPred u' c' r := rfl

lemma pbUpsert_find_other (db : DB) (u : Nat) (cat : String) (t : Int) (a : PyDateTime)
    (rid : Nat) (u' : Nat) (c' : String) (hne : ¬ (u' = u ∧ c' = cat)) :
    pbFind ((pbUpsert db u cat t a rid).1) u' c' = pbFind db u' c' := by
  have hrow : pbKeyPred u' c' (⟨u, cat, t, a, rid⟩ : PBRow) = false := by
    apply Bool.eq_false_iff.mpr
    intro hx
    have hx' := (pbKeyPred_true_iff u' c' _).mp hx
    exact hne ⟨hx'.1.symm, hx'.2.symm⟩
  unfold pbUpsert
  cases hf : pbFind db u cat with
  | none =>
    dsimp only
    unfold pbFind
    dsimp only
    rw [find?_append]
    cases hg : db.personalBests.find? (pbKeyPred u' c') with
    | none => simp [List.find?_cons, hrow]
    | some r => rfl
  | some existing =>
    dsimp only
    split
    · unfold pbFind
      dsimp only
      apply find?_map_invariant
      · intro x
        by_cases hx : pbKeyPred u cat x = true
        · rw [if_pos hx, pbKeyPred_upd]
        · rw [if_neg hx]
      · intro x hx
        have hx1 := (pbKeyPred_true_iff u' c' x).mp hx
        have hxne : ¬ pbKeyPred u cat x = true := by
          intro hq
          have hq' := (pbKeyPred_true_iff u cat x).mp hq
          exact hne ⟨hx1.1.symm.trans hq'.1, hx1.2.symm.trans hq'.2⟩
        rw [if_neg hxne]
    · rfl

lemma pbUpsert_lookup_absent (db : DB) (u : Nat) (cat : String) (t : Int) (a : PyDateTime)
    (rid : Nat) (h : pbLookup db u cat = none) :
    pbLookup ((pbUpsert db u cat t a rid).1) u cat = some t := by
  have hf : pbFind db u cat = none := by
    unfold pbLookup at h
    cases hx : pbFind db u cat with
    | none => rfl
    | some r => rw [hx] at h; exact absurd h (by simp)
  unfold pbLookup pbUpsert
  rw [hf]
  dsimp only
  unfold pbFind
  dsimp only
  rw [find?_append]
  unfold pbFind at hf
  rw [hf]
  have hkey : pbKeyPred u cat (⟨u, cat, t, a, rid⟩ : PBRow) = true :=
    (pbKeyPred_true_iff u cat _).mpr ⟨rfl, rfl⟩
  simp [List.find?_cons, hkey]

lemma pbUpsert_lookup_present (db : DB) (u : Nat) (cat : String) (t t₀ : Int) (a : PyDateTime)
    (rid : Nat) (h : pbLookup db u cat = some t₀) :
    pbLookup ((pbUpsert db u cat t a rid).1) u cat = some (if t < t₀ then t else t₀) := by
  obtain ⟨r₀, hr₀, hrt⟩ : ∃ r₀, pbFind db u cat = some r₀ ∧ r₀.timeSeconds = t₀ := by
    unfold pbLookup at h
    cases hx : pbFind db u cat with
    | none => rw [hx] at h; exact absurd h (by simp)
    | some r => rw [hx] at h; exact ⟨r, rfl, by simpa using h⟩
  unfold pbLookup pbUpsert
  rw [hr₀]
  dsimp only
  by_cases hgt : r₀.timeSeconds > t
  · rw [if_pos hgt]
    dsimp only
    unfold pbFind
    dsimp only
    rw [find?_map_upd (pbKeyPred u cat)
      (fun r => { r with timeSeconds := t, achievedAt := a, runId := rid })
      (fun x hx => by rw [pbKeyPred_upd]; exact hx)]
    unfold pbFind at hr₀
    rw [hr₀]
    have hlt : t < t₀ := by omega
    simp [hlt]
  · rw [if_neg hgt]
    dsimp only
    rw [hr₀]
    have hnlt : ¬ t < t₀ := by omega
    simp [hnlt, hrt]

lemma pbUpsert_rowcount (db : DB) (u : Nat) (cat : String) (t : Int) (a : PyDateTime)
    (rid : Nat) :
    (pbUpsert db u cat t a rid).2 = true ↔
      (pbLookup db u cat = none ∨ ∃ t₀, pbLookup db u cat = some t₀ ∧ t < t₀) := by
  unfold pbUpsert
  cases hf : pbFind db u cat with
  | none =>
    dsimp only
    simp [pbLookup, hf]
  | some r =>
    dsimp only
    by_cases hgt : r.timeSeconds > t
    · rw [if_pos hgt]
      dsimp only
      constructor
      · intro _
        exact Or.inr ⟨r.timeSeconds, by simp [pbLookup, hf], by omega⟩
      · intro _; rfl
    · rw [if_neg hgt]
      dsimp only
      constructor
      · intro hfalse
        exact absurd hfalse (by simp)
      · rintro (hn | ⟨t₀, ht₀, hlt⟩)
        · exact absurd hn (by simp [pbLookup, hf])
        · have : r.timeSeconds = t₀ := by simpa [pbLookup, hf] using ht₀
          exfalso
          omega

/-- Stored best times never increase from store a to store b. -/
def pbMono (a b : DB) : Prop :=
  ∀ u cat t, pbLookup a u cat = some t → ∃ t', pbLookup b u cat = some t' ∧ t' ≤ t

lemma pbMono_refl (a : DB) : pbMono a a := fun _ _ t h => ⟨t, h, le_refl t⟩

lemma pbMono_trans {a b c : DB} (h1 : pbMono a b) (h2 : pbMono b c) : pbMono a c := by
  intro u cat t h
  obtain ⟨t', h', le1⟩ := h1 u cat t h
  obtain ⟨t'', h'', le2⟩ := h2 u cat t' h'
  exact ⟨t'', h'', le_trans le2 le1⟩

lemma pbLookup_congr {a b : DB} (h : b.personalBests = a.personalBests) (u : Nat)
    (cat : String) : pbLookup b u cat = pbLookup a u cat := by
  unfold pbLookup pbFind
  rw [h]

lemma pbMono_of_eq {a b : DB} (h : b.personalBests = a.personalBests) : pbMono a b := by
  intro u cat t ht
  exact ⟨t, by rw [pbLookup_congr h]; exact ht, le_refl t⟩

lemma pbMono_upsert (db : DB) (u : Nat) (cat : String) (t : Int) (a : PyDateTime) (rid : Nat) :
    pbMono db ((pbUpsert db u cat t a rid).1) := by
  intro u' c' t₀ h
  by_cases hk : u' = u ∧ c' = cat
  · obtain ⟨hu, hc⟩ := hk
    subst hu; subst hc
    rw [pbUpsert_lookup_present db u' c' t t₀ a rid h]
    by_cases hlt : t < t₀
    · exact ⟨t, by rw [if_pos hlt], le_of_lt hlt⟩
    · exact ⟨t₀, by rw [if_neg hlt], le_refl t₀⟩
  · have heq : pbLookup ((pbUpsert db u cat t a rid).1) u' c' = pbLookup db u' c' := by
      unfold pbLookup
      rw [pbUpsert_find_other db u cat t a rid u' c' hk]
    rw [heq]
    exact ⟨t₀, h, le_refl t₀⟩

lemma pbMono_categoryStep (u rid : Nat) (kmSplits : Option (List Split))
    (completedAt : PyDateTime) (db : DB) (c : String × Nat) :
    pbMono db (pbCategoryStep u rid kmSplits completedAt db c) := by
  unfold pbCategoryStep
  cases fastestConsecutiveTime kmSplits c.2 with
  | none => exact pbMono_refl db
  | some t =>
    dsimp only
    split
    · exact pbMono_trans (pbMono_upsert db u c.1 t completedAt rid)
        (pbMono_of_eq (logActivity_personalBests _ u "pb" (some rid) _))
    · exact pbMono_upsert db u c.1 t completedAt rid

lemma pbMono_computePersonalBests (db : DB) (u rid : Nat) (kmSplits : Option (List Split))
    (completedAt : PyDateTime) (isEligible : Bool) :
    pbMono db (computePersonalBests db u rid kmSplits completedAt isEligible) := by
  unfold computePersonalBests
  split
  · exact pbMono_refl db
  · exact foldl_preserve (pbCategoryStep u rid kmSplits completedAt) (pbMono db)
      (fun b c hb => pbMono_trans hb (pbMono_categoryStep u rid kmSplits completedAt b c))
      distanceCategories db (pbMono_refl db)

lemma pbMono_syncOne (db : DB) (u : Nat) (now : PyDateTime) (p : RunPayload) :
    pbMono db ((syncOne db u now p).1) := by
  unfold syncOne
  split
  · exact pbMono_refl db
  · dsimp only
    have hmono : pbMono db (computePersonalBests
        { db with runs := db.runs ++ [runRowOfPayload u now p] } u p.id p.kmSplits
        p.completedAt (p.dataSource == "bluetooth_ftms")) :=
      pbMono_trans
        (pbMono_of_eq (show ({ db with runs := db.runs ++ [runRowOfPayload u now p] }
          : DB).personalBests = db.personalBests from rfl))
        (pbMono_computePersonalBests _ u p.id p.kmSplits p.completedAt _)
    refine pbMono_trans hmono (pbMono_of_eq ?_)
    rw [checkAchievements_personalBests, logActivity_personalBests, shoeStep_personalBests,
      checkEvent_personalBests, checkChallenge_personalBests]

lemma pbMono_syncRuns (db : DB) (u : Nat) (now : PyDateTime) (payloads : List RunPayload) :
    pbMono db ((syncRuns db u now payloads).1) := by
  unfold syncRuns
  dsimp only
  exact foldl_preserve _ (fun (a : DB × Nat × List AchSummary) => pbMono db a.1)
    (fun b p hp => pbMono_trans hp (pbMono_syncOne b.1 u now p)) payloads (db, 0, [])
    (pbMono_refl db)

lemma pbMono_applySyncs (db : DB) (batches : List SyncBatch) :
    pbMono db (applySyncs db batches) := by
  unfold applySyncs
  exact foldl_preserve _ (pbMono db)
    (fun b batch hb => pbMono_trans hb (pbMono_syncRuns b batch.user batch.now batch.payloads))
    batches db (pbMono_refl db)

/-- C3: the personal-best upsert inserts when no row exists for the user
and category, otherwise updates exactly when the new time is strictly
smaller than the stored time; hence across any sequence of sync requests
the stored best time never increases. -/
theorem c3_pb_monotonicity (db : DB) (u : Nat) (cat : String) (t : Int) (a : PyDateTime)
    (rid : Nat) :
    (pbLookup db u cat = none →
      pbLookup ((pbUpsert db u cat t a rid).1) u cat = some t) ∧
    (∀ t₀, pbLookup db u cat = some t₀ →
      pbLookup ((pbUpsert db u cat t a rid).1) u cat = some (if t < t₀ then t else t₀) ∧
      ((pbUpsert db u cat t a rid).2 = true ↔ t < t₀)) ∧
    (∀ (batches : List SyncBatch) (t₀ : Int), pbLookup db u cat = some t₀ →
      ∃ t₁, pbLookup (applySyncs db batches) u cat = some t₁ ∧ t₁ ≤ t₀) := by
  refine ⟨pbUpsert_lookup_absent db u cat t a rid, ?_, ?_⟩
  · intro t₀ h
    refine ⟨pbUpsert_lookup_present db u cat t t₀ a rid h, ?_⟩
    rw [pbUpsert_rowcount]
    constructor
    · rintro (hn | ⟨t₁, ht₁, hlt⟩)
      · rw [h] at hn; exact absurd hn (by simp)
      · rw [h] at ht₁
        have : t₀ = t₁ := by simpa using ht₁
        omega
    · intro hlt
      exact Or.inr ⟨t₀, h, hlt⟩
  · intro batches t₀ h
    exact pbMono_applySyncs db batches u cat t₀ h

/-- A concrete store holding one 5K personal best of 1500 seconds. -/
def dbOnePB : DB :=
  { emptyDB with personalBests := [⟨7, "5K", 1500, ⟨100, 1, 2025⟩, 1⟩] }

/-- Witness for C3: improving the stored 1500 to 1400 updates the row, and
an empty sequence of further syncs keeps the stored time at most 1500. -/
theorem c3_pb_monotonicity_witness :
    pbLookup ((pbUpsert dbOnePB 7 "5K" 1400 ⟨200, 2, 2025⟩ 2).1) 7 "5K"
      = some (if (1400 : Int) < 1500 then 1400 else 1500) ∧
    ∃ t₁, pbLookup (applySyncs dbOnePB []) 7 "5K" = some t₁ ∧ t₁ ≤ 1500 := by
  have h := c3_pb_monotonicity dbOnePB 7 "5K" 1400 ⟨200, 2, 2025⟩ 2
  exact ⟨(h.2.1 1500 (by decide)).1, h.2.2 [] 1500 (by decide)⟩

/-! ## C9: when the pb activity entry is emitted -/

lemma pbUpsert_false_state (db : DB) (u : Nat) (cat : String) (t : Int) (a : PyDateTime)
    (rid : Nat) (h : ¬ (pbUpsert db u cat t a rid).2 = true) :
    (pbUpsert db u cat t a rid).1 = db := by
  unfold pbUpsert at h ⊢
  cases hf : pbFind db u cat with
  | none =>
    rw [hf] at h
    exact absurd rfl h
  | some r =>
    rw [hf] at h
    dsimp only at h ⊢
    by_cases hgt : r.timeSeconds > t
    · rw [if_pos hgt] at h
      exact absurd rfl h
    · rw [if_neg hgt]

lemma pbLookup_eq_of_find {d db : DB} {u : Nat} {cat : String}
    (h : pbFind d u cat = pbFind db u cat) : pbLookup d u cat = pbLookup db u cat := by
  unfold pbLookup
  rw [h]

/-- The pb activity rows emitted by one personal-best computation, per
distance category: an entry exactly when the extractor succeeds and the
upsert inserts (no stored row) or improves (strictly smaller time). -/
def pbLogEntries (db : DB) (u rid : Nat) (kmSplits : Option (List Split))
    (cs : List (String × Nat)) : List ActivityRow :=
  cs.filterMap (fun c =>
    match fastestConsecutiveTime kmSplits c.2 with
    | none => none
    | some t =>
        match pbLookup db u c.1 with
        | none => some ⟨u, "pb", some rid, some (.pb c.1 t)⟩
        | some t₀ =>
            if t < t₀ then some ⟨u, "pb", some rid, some (.pb c.1 t)⟩ else none)

lemma pbFold_log (db : DB) (u rid : Nat) (ks : Option (List Split)) (at_ : PyDateTime) :
    ∀ (cs : List (String × Nat)) (d : DB),
      (∀ c ∈ cs, pbFind d u c.1 = pbFind db u c.1) →
      (cs.map (·.1)).Nodup →
      (cs.foldl (pbCategoryStep u rid ks at_) d).activityLog
        = d.activityLog ++ pbLogEntries db u rid ks cs := by
  intro cs
  induction cs with
  | nil => intro d _ _; simp [pbLogEntries]
  | cons c cs ih =>
    intro d hinv hnodup
    have hhead : pbFind d u c.1 = pbFind db u c.1 := hinv c (List.mem_cons_self c cs)
    have htailne : ∀ c' ∈ cs, ¬ c'.1 = c.1 := by
      intro c' hc' hcc
      have : c.1 ∈ cs.map (·.1) := by
        rw [← hcc]
        exact List.mem_map_of_mem _ hc'
      exact (List.nodup_cons.mp hnodup).1 this
    have htailnodup : (cs.map (·.1)).Nodup := (List.nodup_cons.mp hnodup).2
    have hfoldc : (c :: cs).foldl (pbCategoryStep u rid ks at_) d
        = cs.foldl (pbCategoryStep u rid ks at_) (pbCategoryStep u rid ks at_ d c) := rfl
    rw [hfoldc]
    cases hft : fastestConsecutiveTime ks c.2 with
    | none =>
      have hstep : pbCategoryStep u rid ks at_ d c = d := by
        unfold pbCategoryStep
        rw [hft]
      rw [hstep, ih d (fun c' hc' => hinv c' (List.mem_cons_of_mem c hc')) htailnodup]
      unfold pbLogEntries
      rw [List.filterMap_cons]
      rw [hft]
    | some t =>
      by_cases hfire : (pbUpsert d u c.1 t at_ rid).2 = true
      · have hstep : pbCategoryStep u rid ks at_ d c
            = logActivity (pbUpsert d u c.1 t at_ rid).1 u "pb" (some rid)
                (some (.pb c.1 t)) := by
          unfold pbCategoryStep
          rw [hft]
          dsimp only
          rw [if_pos hfire]
        have hinv' : ∀ c' ∈ cs,
            pbFind (logActivity (pbUpsert d u c.1 t at_ rid).1 u "pb" (some rid)
              (some (.pb c.1 t))) u c'.1 = pbFind db u c'.1 := by
          intro c' hc'
          have h1 : pbFind (logActivity (pbUpsert d u c.1 t at_ rid).1 u "pb" (some rid)
              (some (.pb c.1 t))) u c'.1 = pbFind ((pbUpsert d u c.1 t at_ rid).1) u c'.1 := by
            unfold pbFind
            rw [logActivity_personalBests]
          rw [h1, pbUpsert_find_other d u c.1 t at_ rid u c'.1
            (fun hk => htailne c' hc' hk.2), hinv c' (List.mem_cons_of_mem c hc')]
        rw [hstep, ih _ hinv' htailnodup, logActivity_log, pbUpsert_log]
        have hentry : (match fastestConsecutiveTime ks c.2 with
            | none => (none : Option ActivityRow)
            | some t =>
                match pbLookup db u c.1 with
                | none => some ⟨u, "pb", some rid, some (.pb c.1 t)⟩
                | some t₀ =>
                    if t < t₀ then some ⟨u, "pb", some rid, some (.pb c.1 t)⟩ else none)
            = some ⟨u, "pb", some rid, some (.pb c.1 t)⟩ := by
          rw [hft]
          have hcase := (pbUpsert_rowcount d u c.1 t at_ rid).mp hfire
          rw [pbLookup_eq_of_find hhead] at hcase
          rcases hcase with hn | ⟨t₀, ht₀, hlt⟩
          · rw [hn]
          · rw [ht₀]
            dsimp only
            rw [if_pos hlt]
        unfold pbLogEntries
        rw [List.filterMap_cons, hentry]
        simp
      · have hstep : pbCategoryStep u rid ks at_ d c = d := by
          unfold pbCategoryStep
          rw [hft]
          dsimp only
          rw [if_neg hfire, pbUpsert_false_state d u c.1 t at_ rid hfire]
        have hentry : (match fastestConsecutiveTime ks c.2 with
            | none => (none : Option ActivityRow)
            | some t =>
                match pbLookup db u c.1 with
                | none => some ⟨u, "pb", some rid, some (.pb c.1 t)⟩
                | some t₀ =>
                    if t < t₀ then some ⟨u, "pb", some rid, some (.pb c.1 t)⟩ else none)
            = none := by
          rw [hft]
          cases hlk : pbLookup db u c.1 with
          | none =>
            exfalso
            apply hfire
            rw [pbUpsert_rowcount]
            rw [pbLookup_eq_of_find hhead]
            exact Or.inl hlk
          | some t₀ =>
            dsimp only
            rw [if_neg ?hn]
            case hn =>
              intro hlt
              apply hfire
              rw [pbUpsert_rowcount]
              rw [pbLookup_eq_of_find hhead]
              exact Or.inr ⟨t₀, hlk, hlt⟩
        rw [hstep, ih d (fun c' hc' => hinv c' (List.mem_cons_of_mem c hc')) htailnodup]
        unfold pbLogEntries
        rw [List.filterMap_cons, hentry]

/-- C9 counterexample: a first-ever qualifying run (no stored personal
best) does emit a pb activity-log entry on its initial insert. -/
theorem c9_counterexample_initial_insert_logs :
    pbLookup emptyDB 7 "5K" = none ∧
    (computePersonalBests emptyDB 7 1 (some scenarioSplits) ⟨100, 1, 2025⟩ true).activityLog
      = [⟨7, "pb", some 1, some (.pb "5K" 1500)⟩] := by
  constructor
  · rfl
  · decide

/-- C9 amended: during a sync of an eligible run with a split table, a pb
activity entry is emitted for exactly those categories whose upsert
touched a row, which happens exactly when the extractor succeeds and
either no row was stored (initial insert) or the new time is strictly
better than the stored one. -/
theorem c9_pb_logging (db : DB) (u rid : Nat) (s : List Split) (at_ : PyDateTime)
    (cat : String) (t : Int) (a : PyDateTime) (rid' : Nat) :
    (computePersonalBests db u rid (some s) at_ true).activityLog
      = db.activityLog ++ pbLogEntries db u rid (some s) distanceCategories ∧
    ((pbUpsert db u cat t a rid').2 = true ↔
      (pbLookup db u cat = none ∨ ∃ t₀, pbLookup db u cat = some t₀ ∧ t < t₀)) := by
  constructor
  · unfold computePersonalBests
    rw [if_neg (by simp)]
    exact pbFold_log db u rid (some s) at_ distanceCategories db (fun _ _ => rfl) (by decide)
  · exact pbUpsert_rowcount db u cat t a rid'

/-! ## C6: streak transition correctness -/

lemma streakFind_userId (db : DB) (u : Nat) (s : StreakRow)
    (hs : streakFind db u = some s) : (s.userId == u) = true := by
  unfold streakFind at hs
  have h := List.find?_some hs
  exact h

lemma updateStreak_no_row (db : DB) (u : Nat) (d : Int)
    (h : streakFind db u = none) :
    updateStreak db u d
      = ({ db with streaks := db.streaks ++ [⟨u, 1, 1, some d, some d⟩] }, 1) := by
  unfold updateStreak
  rw [h]

lemma updateStreak_same_day (db : DB) (u : Nat) (d : Int) (s : StreakRow)
    (hs : streakFind db u = some s) (hl : s.lastRunDate = some d) :
    updateStreak db u d = (db, s.currentStreakDays) := by
  unfold updateStreak
  rw [hs]
  dsimp only
  rw [if_pos hl]

lemma streakFind_map_self (db : DB) (u : Nat) (s s3 : StreakRow)
    (hs : streakFind db u = some s) (h3 : (s3.userId == u) = true) :
    ({ db with streaks := db.streaks.map (fun r => if r.userId == u then s3 else r) }
      : DB).streaks.find? (fun r => r.userId == u) = some s3 := by
  have := find?_map_ite (fun (r : StreakRow) => r.userId == u) s3 h3 db.streaks
  dsimp only
  rw [this]
  unfold streakFind at hs
  rw [hs]
  rfl

lemma updateStreak_consecutive (db : DB) (u : Nat) (d l : Int) (s : StreakRow)
    (hs : streakFind db u = some s) (hl : s.lastRunDate = some l) (hinc : d - l = 1) :
    updateStreak db u d
      = ({ db with streaks := db.streaks.map (fun r => if r.userId == u then
            ⟨s.userId, s.currentStreakDays + 1,
              (if s.currentStreakDays + 1 > s.longestStreakDays then s.currentStreakDays + 1
                else s.longestStreakDays), some d, s.streakStartDate⟩ else r) },
          s.currentStreakDays + 1) ∧
    streakFind ((updateStreak db u d).1) u
      = some ⟨s.userId, s.currentStreakDays + 1,
          (if s.currentStreakDays + 1 > s.longestStreakDays then s.currentStreakDays + 1
            else s.longestStreakDays), some d, s.streakStartDate⟩ := by
  have hne : ¬ s.lastRunDate = some d := by
    rw [hl]
    intro hq
    have hld : l = d := Option.some.inj hq
    omega
  have heq : updateStreak db u d
      = ({ db with streaks := db.streaks.map (fun r => if r.userId == u then
            ⟨s.userId, s.currentStreakDays + 1,
              (if s.currentStreakDays + 1 > s.longestStreakDays then s.currentStreakDays + 1
                else s.longestStreakDays), some d, s.streakStartDate⟩ else r) },
          s.currentStreakDays + 1) := by
    unfold updateStreak
    rw [hs]
    dsimp only
    rw [if_neg hne, hl]
    dsimp only
    rw [if_pos hinc]
    by_cases hc : s.currentStreakDays + 1 > s.longestStreakDays
    · rw [if_pos hc, if_pos hc]
    · rw [if_neg hc, if_neg hc]
  refine ⟨heq, ?_⟩
  rw [heq]
  unfold streakFind
  exact streakFind_map_self db u s _ hs (by exact streakFind_userId db u s hs)

lemma updateStreak_break (db : DB) (u : Nat) (d l : Int) (s : StreakRow)
    (hs : streakFind db u = some s) (hl : s.lastRunDate = some l) (hne : ¬ d = l)
    (hninc : ¬ d - l = 1) :
    updateStreak db u d
      = ({ db with streaks := db.streaks.map (fun r => if r.userId == u then
            ⟨s.userId, 1, (if 1 > s.longestStreakDays then 1 else s.longestStreakDays),
              some d, some d⟩ else r) }, 1) ∧
    streakFind ((updateStreak db u d).1) u
      = some ⟨s.userId, 1, (if 1 > s.longestStreakDays then 1 else s.longestStreakDays),
          some d, some d⟩ := by
  have hne' : ¬ s.lastRunDate = some d := by
    rw [hl]
    intro hq
    exact hne (Option.some.inj hq).symm
  have hzero : ¬ d - l = 0 := by omega
  have heq : updateStreak db u d
      = ({ db with streaks := db.streaks.map (fun r => if r.userId == u then
            ⟨s.userId, 1, (if 1 > s.longestStreakDays then 1 else s.longestStreakDays),
              some d, some d⟩ else r) }, 1) := by
    unfold updateStreak
    rw [hs]
    dsimp only
    rw [if_neg hne', hl]
    dsimp only
    rw [if_neg hninc, if_neg hzero]
    by_cases hc : (1 : Int) > s.longestStreakDays
    · rw [if_pos hc, if_pos hc]
    · rw [if_neg hc, if_neg hc]
  refine ⟨heq, ?_⟩
  rw [heq]
  unfold streakFind
  exact streakFind_map_self db u s _ hs (by exact streakFind_userId db u s hs)

lemma streakFind_after_insert (db : DB) (u : Nat) (d : Int)
    (h : streakFind db u = none) :
    streakFind ({ db with streaks := db.streaks ++ [⟨u, 1, 1, some d, some d⟩] }) u
      = some ⟨u, 1, 1, some d, some d⟩ := by
  unfold streakFind at h ⊢
  dsimp only
  rw [find?_append, h]
  simp [List.find?_cons]

/-- C6: processing a run dated the same calendar day as the stored last
run date changes nothing; a run exactly one day later increments the
current streak and raises the longest streak when the new current exceeds
it; any other date resets the current streak to 1 and restarts the streak
start date, the last run date advancing in every non-same-day case; and
from no prior record, runs on days D, D+1, D+2 yield a current streak of
3, after which a run on D+10 resets it to 1. -/
theorem c6_streak_transitions (db : DB) (u : Nat) (d : Int) (s : StreakRow)
    (hs : streakFind db u = some s) :
    (s.lastRunDate = some d → updateStreak db u d = (db, s.currentStreakDays)) ∧
    (∀ l, s.lastRunDate = some l → d - l = 1 →
      (updateStreak db u d).2 = s.currentStreakDays + 1 ∧
      streakFind ((updateStreak db u d).1) u
        = some ⟨s.userId, s.currentStreakDays + 1,
            (if s.currentStreakDays + 1 > s.longestStreakDays then s.currentStreakDays + 1
              else s.longestStreakDays), some d, s.streakStartDate⟩) ∧
    (∀ l, s.lastRunDate = some l → ¬ d = l → ¬ d - l = 1 →
      (updateStreak db u d).2 = 1 ∧
      streakFind ((updateStreak db u d).1) u
        = some ⟨s.userId, 1, (if 1 > s.longestStreakDays then 1 else s.longestStreakDays),
            some d, some d⟩) ∧
    (∀ (db₀ : DB) (u₀ : Nat) (D : Int), streakFind db₀ u₀ = none →
      (updateStreak (updateStreak (updateStreak db₀ u₀ D).1 u₀ (D + 1)).1 u₀ (D + 2)).2
        = 3 ∧
      (updateStreak (updateStreak (updateStreak (updateStreak db₀ u₀ D).1 u₀
        (D + 1)).1 u₀ (D + 2)).1 u₀ (D + 10)).2 = 1) := by
  refine ⟨fun hl => updateStreak_same_day db u d s hs hl, ?_, ?_, ?_⟩
  · intro l hl hinc
    obtain ⟨heq, hfind⟩ := updateStreak_consecutive db u d l s hs hl hinc
    exact ⟨by rw [heq], hfind⟩
  · intro l hl hne hninc
    obtain ⟨heq, hfind⟩ := updateStreak_break db u d l s hs hl hne hninc
    exact ⟨by rw [heq], hfind⟩
  · intro db₀ u₀ D h0
    have h1 := updateStreak_no_row db₀ u₀ D h0
    have hf1 : streakFind ((updateStreak db₀ u₀ D).1) u₀
        = some ⟨u₀, 1, 1, some D, some D⟩ := by
      rw [h1]
      exact streakFind_after_insert db₀ u₀ D h0
    obtain ⟨h2, hf2⟩ := updateStreak_consecutive ((updateStreak db₀ u₀ D).1) u₀ (D + 1) D
      ⟨u₀, 1, 1, some D, some D⟩ hf1 rfl (by omega)
    have hf2' : streakFind ((updateStreak ((updateStreak db₀ u₀ D).1) u₀ (D + 1)).1) u₀
        = some ⟨u₀, 2, 2, some (D + 1), some D⟩ := by
      rw [hf2]
      norm_num
    obtain ⟨h3, hf3⟩ := updateStreak_consecutive
      ((updateStreak ((updateStreak db₀ u₀ D).1) u₀ (D + 1)).1) u₀ (D + 2) (D + 1)
      ⟨u₀, 2, 2, some (D + 1), some D⟩ hf2' rfl (by omega)
    have hf3' : streakFind ((updateStreak ((updateStreak ((updateStreak db₀ u₀ D).1) u₀
        (D + 1)).1) u₀ (D + 2)).1) u₀ = some ⟨u₀, 3, 3, some (D + 2), some D⟩ := by
      rw [hf3]
      norm_num
    obtain ⟨h4, _⟩ := updateStreak_break
      ((updateStreak ((updateStreak ((updateStreak db₀ u₀ D).1) u₀ (D + 1)).1) u₀
        (D + 2)).1) u₀ (D + 10) (D + 2) ⟨u₀, 3, 3, some (D + 2), some D⟩ hf3' rfl
      (by omega) (by omega)
    constructor
    · rw [h3]
      norm_num
    · rw [h4]

/-- Witness for C6 at a concrete stored streak row. -/
theorem c6_streak_transitions_witness :
    updateStreak ({ emptyDB with streaks := [⟨7, 2, 5, some 10, some 9⟩] }) 7 10
      = ({ emptyDB with streaks := [⟨7, 2, 5, some 10, some 9⟩] }, 2) ∧
    (updateStreak (updateStreak (updateStreak emptyDB 7 100).1 7 101).1 7 102).2 = 3 ∧
    (updateStreak (updateStreak (updateStreak (updateStreak emptyDB 7 100).1 7
      101).1 7 102).1 7 110).2 = 1 := by
  have h := c6_streak_transitions ({ emptyDB with streaks := [⟨7, 2, 5, some 10, some 9⟩] })
    7 10 ⟨7, 2, 5, some 10, some 9⟩ (by decide)
  refine ⟨h.1 rfl, ?_, ?_⟩
  · exact (h.2.2.2 emptyDB 7 100 (by decide)).1
  · exact (h.2.2.2 emptyDB 7 100 (by decide)).2

/-! ## C4: at-most-once unlock -/

/-- The row predicate of the user-achievement unique pair. -/
def uaPred (u : Nat) (achId : String) (r : UARow) : Bool :=
  r.userId == u && r.achievementId == achId

/-- Number of user-achievement rows for a pair. -/
def uaCount (db : DB) (u : Nat) (achId : String) : Nat :=
  db.userAchievements.countP (uaPred u achId)

/-- Every (user, achievement) pair has at most one row. -/
def uaAtMostOne (db : DB) : Prop := ∀ u a, uaCount db u a ≤ 1

lemma uaHas_eq_any (db : DB) (u : Nat) (a : String) :
    uaHas db u a = db.userAchievements.any (uaPred u a) := rfl

lemma uaCount_eq_of {a b : DB} (h : a.userAchievements = b.userAchievements) (u : Nat)
    (x : String) : uaCount a u x = uaCount b u x := by
  unfold uaCount
  rw [h]

lemma uaHas_eq_of {a b : DB} (h : a.userAchievements = b.userAchievements) (u : Nat)
    (x : String) : uaHas a u x = uaHas b u x := by
  unfold uaHas
  rw [h]

lemma uaPred_true_iff (u : Nat) (a : String) (r : UARow) :
    uaPred u a r = true ↔ r.userId = u ∧ r.achievementId = a := by
  unfold uaPred
  simp

lemma uaHas_true_iff (db : DB) (u : Nat) (a : String) :
    uaHas db u a = true ↔ ∃ r ∈ db.userAchievements, r.userId = u ∧ r.achievementId = a := by
  rw [uaHas_eq_any, List.any_eq_true]
  constructor
  · rintro ⟨r, hr, hp⟩
    exact ⟨r, hr, (uaPred_true_iff u a r).mp hp⟩
  · rintro ⟨r, hr, hp⟩
    exact ⟨r, hr, (uaPred_true_iff u a r).mpr hp⟩

lemma unlock_snd_true_iff (db : DB) (u : Nat) (a : String) (rid : Nat) (t : PyDateTime) :
    (unlock db u a rid t).2 = true ↔ uaHas db u a = false := by
  unfold unlock
  by_cases h : uaHas db u a = true
  · rw [if_pos h]
    simp [h]
  · rw [if_neg h]
    simp [Bool.eq_false_iff.mpr h]

lemma unlock_false_state (db : DB) (u : Nat) (a : String) (rid : Nat) (t : PyDateTime)
    (h : ¬ (unlock db u a rid t).2 = true) : (unlock db u a rid t).1 = db := by
  unfold unlock at h ⊢
  by_cases hh : uaHas db u a = true
  · rw [if_pos hh]
  · rw [if_neg hh] at h
    exact absurd rfl h

lemma unlock_has_mono (db : DB) (u : Nat) (a : String) (rid : Nat) (t : PyDateTime)
    (u' : Nat) (a' : String) (h : uaHas db u' a' = true) :
    uaHas (unlock db u a rid t).1 u' a' = true := by
  unfold unlock
  split
  · exact h
  · rw [uaHas_eq_any] at h ⊢
    dsimp only
    rw [List.any_append, h]
    rfl

lemma unlock_has_after (db : DB) (u : Nat) (a : String) (rid : Nat) (t : PyDateTime) :
    uaHas (unlock db u a rid t).1 u a = true := by
  unfold unlock
  split
  · assumption
  · rw [uaHas_eq_any]
    dsimp only
    rw [List.any_append]
    have : uaPred u a (⟨u, a, rid, t, "false"⟩ : UARow) = true :=
      (uaPred_true_iff u a _).mpr ⟨rfl, rfl⟩
    simp [this]

lemma unlock_has_new (db : DB) (u : Nat) (a : String) (rid : Nat) (t : PyDateTime)
    (u' : Nat) (a' : String) (h : uaHas (unlock db u a rid t).1 u' a' = true) :
    uaHas db u' a' = true ∨ (u' = u ∧ a' = a) := by
  unfold unlock at h
  by_cases hh : uaHas db u a = true
  · rw [if_pos hh] at h
    exact Or.inl h
  · rw [if_neg hh] at h
    rw [uaHas_eq_any] at h
    dsimp only at h
    rw [List.any_append] at h
    rcases Bool.or_eq_true_iff.mp h with h1 | h2
    · exact Or.inl h1
    · have : uaPred u' a' (⟨u, a, rid, t, "false"⟩ : UARow) = true := by
        cases hx : uaPred u' a' (⟨u, a, rid, t, "false"⟩ : UARow) with
        | true => rfl
        | false => simp [List.any_cons, List.any_nil, hx] at h2
      have hp := (uaPred_true_iff u' a' _).mp this
      exact Or.inr ⟨hp.1.symm, hp.2.symm⟩

lemma unlock_count_le (db : DB) (u : Nat) (a : String) (rid : Nat) (t : PyDateTime)
    (u' : Nat) (a' : String) (h : uaCount db u' a' ≤ 1) :
    uaCount (unlock db u a rid t).1 u' a' ≤ 1 := by
  unfold unlock
  split
  · exact h
  · rename_i hno
    unfold uaCount at h ⊢
    dsimp only
    rw [List.countP_append]
    by_cases hk : uaPred u' a' (⟨u, a, rid, t, "false"⟩ : UARow) = true
    · have hk' := (uaPred_true_iff u' a' _).mp hk
      have hz : db.userAchievements.countP (uaPred u' a') = 0 := by
        rw [List.countP_eq_zero]
        intro r hr hpr
        apply hno
        rw [uaHas_true_iff]
        have hpr' := (uaPred_true_iff u' a' r).mp hpr
        exact ⟨r, hr, hpr'.1.trans hk'.1.symm, hpr'.2.trans hk'.2.symm⟩
      rw [hz]
      simp [List.countP_cons, hk]
    · have hk' : uaPred u' a' (⟨u, a, rid, t, "false"⟩ : UARow) = false :=
        Bool.eq_false_iff.mpr hk
      simpa [List.countP_cons, hk'] using h

lemma unlockPass_count {u rid : Nat} {ua : PyDateTime} {cond : AchDef → Bool} :
    ∀ {defs : List AchDef} {db : DB} {acc : List AchSummary} (u' : Nat) (a' : String),
      uaCount db u' a' ≤ 1 → uaCount (unlockPass u rid ua cond defs db acc).1 u' a' ≤ 1 := by
  intro defs
  induction defs with
  | nil => intro db acc u' a' h; exact h
  | cons d rest ih =>
    intro db acc u' a' h
    unfold unlockPass
    split
    · exact ih u' a' (unlock_count_le db u d.id rid ua u' a' h)
    · exact ih u' a' h

lemma unlockPass_has_mono {u rid : Nat} {ua : PyDateTime} {cond : AchDef → Bool} :
    ∀ {defs : List AchDef} {db : DB} {acc : List AchSummary} (u' : Nat) (a' : String),
      uaHas db u' a' = true → uaHas (unlockPass u rid ua cond defs db acc).1 u' a' = true := by
  intro defs
  induction defs with
  | nil => intro db acc u' a' h; exact h
  | cons d rest ih =>
    intro db acc u' a' h
    unfold unlockPass
    split
    · exact ih u' a' (unlock_has_mono db u d.id rid ua u' a' h)
    · exact ih u' a' h

lemma unlockPass_prefix (u rid : Nat) (ua : PyDateTime) (cond : AchDef → Bool) :
    ∀ (defs : List AchDef) (db : DB) (acc : List AchSummary),
      ∃ extra, (unlockPass u rid ua cond defs db acc).2 = acc ++ extra := by
  intro defs
  induction defs with
  | nil => intro db acc; exact ⟨[], by simp [unlockPass]⟩
  | cons d rest ih =>
    intro db acc
    unfold unlockPass
    split
    · dsimp only
      by_cases hr : (unlock db u d.id rid ua).2 = true
      · rw [if_pos hr]
        obtain ⟨extra, hx⟩ := ih ((unlock db u d.id rid ua).1)
          (acc ++ [defnToSummary d])
        exact ⟨defnToSummary d :: extra, by rw [hx]; simp⟩
      · rw [if_neg hr]
        exact ih ((unlock db u d.id rid ua).1) acc
    · exact ih db acc

lemma unlockPass_sound {u rid : Nat} {ua : PyDateTime} {cond : AchDef → Bool} :
    ∀ {defs : List AchDef} {db : DB} {acc : List AchSummary} {s : AchSummary},
      s ∈ (unlockPass u rid ua cond defs db acc).2 →
      s ∈ acc ∨ (uaHas db u s.id = false ∧
        uaHas (unlockPass u rid ua cond defs db acc).1 u s.id = true) := by
  intro defs
  induction defs with
  | nil => intro db acc s hs; exact Or.inl hs
  | cons d rest ih =>
    intro db acc s hs
    unfold unlockPass at hs ⊢
    split at hs
    · dsimp only at hs ⊢
      rw [if_pos ?c1]
      case c1 => assumption
      by_cases hr : (unlock db u d.id rid ua).2 = true
      · rw [if_pos hr] at hs ⊢
        rcases ih hs with hacc | ⟨hf, ht⟩
        · rcases List.mem_append.mp hacc with h1 | h2
          · exact Or.inl h1
          · have hsd : s = defnToSummary d := by simpa using h2
            right
            constructor
            · rw [hsd]
              exact (unlock_snd_true_iff db u d.id rid ua).mp hr
            · rw [hsd]
              exact unlockPass_has_mono u d.id (unlock_has_after db u d.id rid ua)
        · right
          constructor
          · cases hdb : uaHas db u s.id with
            | false => rfl
            | true =>
              exact absurd (unlock_has_mono db u d.id rid ua u s.id hdb)
                (Bool.eq_false_iff.mp hf)
          · exact ht
      · rw [if_neg hr] at hs ⊢
        have hstate := unlock_false_state db u d.id rid ua hr
        rw [hstate] at hs ⊢
        exact ih hs
    · rename_i hcond
      dsimp only
      rw [if_neg hcond]
      exact ih hs

lemma unlockPass_complete {u rid : Nat} {ua : PyDateTime} {cond : AchDef → Bool} :
    ∀ {defs : List AchDef} {db : DB} {acc : List AchSummary} (u' : Nat) (a' : String),
      uaHas (unlockPass u rid ua cond defs db acc).1 u' a' = true →
      uaHas db u' a' = true ∨
        (u' = u ∧ ∃ s ∈ (unlockPass u rid ua cond defs db acc).2, s.id = a') := by
  intro defs
  induction defs with
  | nil => intro db acc u' a' h; exact Or.inl h
  | cons d rest ih =>
    intro db acc u' a' h
    unfold unlockPass at h ⊢
    split at h
    · rename_i hcond
      dsimp only at h ⊢
      rw [if_pos hcond]
      by_cases hr : (unlock db u d.id rid ua).2 = true
      · rw [if_pos hr] at h ⊢
        rcases ih u' a' h with h1 | ⟨hu, s, hsin, hsid⟩
        · rcases unlock_has_new db u d.id rid ua u' a' h1 with h2 | ⟨hu, ha⟩
          · exact Or.inl h2
          · right
            refine ⟨hu, defnToSummary d, ?_, ha.symm⟩
            obtain ⟨extra, hx⟩ := unlockPass_prefix u rid ua cond rest
              ((unlock db u d.id rid ua).1) (acc ++ [defnToSummary d])
            rw [hx]
            simp
        · exact Or.inr ⟨hu, s, hsin, hsid⟩
      · rw [if_neg hr] at h ⊢
        have hstate := unlock_false_state db u d.id rid ua hr
        rw [hstate] at h ⊢
        exact ih u' a' h
    · rename_i hcond
      dsimp only
      rw [if_neg hcond]
      exact ih u' a' h

lemma unlockPass_mem_acc {u rid : Nat} {ua : PyDateTime} {cond : AchDef → Bool}
    {defs : List AchDef} {db : DB} {acc : List AchSummary} {s : AchSummary}
    (h : s ∈ acc) : s ∈ (unlockPass u rid ua cond defs db acc).2 := by
  obtain ⟨extra, he⟩ := unlockPass_prefix u rid ua cond defs db acc
  rw [he]
  exact List.mem_append_left extra h

lemma shoeStep_userAchievements (u : Nat) (p : RunPayload) (d : DB) :
    (match p.shoeId with
      | some sid => shoeAddMileage d sid u p.distanceKm
      | none => d).userAchievements = d.userAchievements := by
  cases p.shoeId with
  | none => rfl
  | some sid => exact shoeAddMileage_userAchievements d sid u p.distanceKm

lemma checkAch_count (db : DB) (u rid : Nat) (dist : Rat) (at_ : PyDateTime)
    (h : uaAtMostOne db) :
    uaAtMostOne ((checkAchievementsAfterSync db u rid dist at_).1) := by
  intro u' a'
  unfold checkAchievementsAfterSync
  dsimp only
  rw [uaCount_eq_of (achLogFold_userAchievements _ _ _) u' a']
  apply unlockPass_count
  apply unlockPass_count
  apply unlockPass_count
  rw [uaCount_eq_of (updateStreak_userAchievements _ _ _) u' a']
  apply unlockPass_count
  exact h u' a'

lemma checkAch_newly (db : DB) (u rid : Nat) (dist : Rat) (at_ : PyDateTime) :
    ∀ s ∈ (checkAchievementsAfterSync db u rid dist at_).2,
      uaHas db u s.id = false ∧
      uaHas (checkAchievementsAfterSync db u rid dist at_).1 u s.id = true ∧
      (⟨u, "achievement", none, some (.achievement s.title s.icon s.tier)⟩ : ActivityRow)
        ∈ ((checkAchievementsAfterSync db u rid dist at_).1).activityLog := by
  intro s hs
  unfold checkAchievementsAfterSync at hs ⊢
  dsimp only at hs ⊢
  refine ⟨?_, ?_, ?_⟩
  · rcases unlockPass_sound hs with h3 | ⟨hf, _⟩
    · rcases unlockPass_sound h3 with h2 | ⟨hf, _⟩
      · rcases unlockPass_sound h2 with h1 | ⟨hf, _⟩
        · rcases unlockPass_sound h1 with h0 | ⟨hf, _⟩
          · exact absurd h0 (List.not_mem_nil s)
          · cases hdb : uaHas db u s.id with
            | false => rfl
            | true =>
              rw [hdb] at hf
              exact hf
        · cases hdb : uaHas db u s.id with
          | false => rfl
          | true =>
            exfalso
            apply Bool.eq_false_iff.mp hf
            rw [uaHas_eq_of (updateStreak_userAchievements _ _ _) u s.id]
            exact unlockPass_has_mono u s.id hdb
      · cases hdb : uaHas db u s.id with
        | false => rfl
        | true =>
          exfalso
          apply Bool.eq_false_iff.mp hf
          apply unlockPass_has_mono
          rw [uaHas_eq_of (updateStreak_userAchievements _ _ _) u s.id]
          exact unlockPass_has_mono u s.id hdb
    · cases hdb : uaHas db u s.id with
      | false => rfl
      | true =>
        exfalso
        apply Bool.eq_false_iff.mp hf
        apply unlockPass_has_mono
        apply unlockPass_has_mono
        rw [uaHas_eq_of (updateStreak_userAchievements _ _ _) u s.id]
        exact unlockPass_has_mono u s.id hdb
  · rw [uaHas_eq_of (achLogFold_userAchievements _ _ _) u s.id]
    rcases unlockPass_sound hs with h3 | ⟨_, ht⟩
    · apply unlockPass_has_mono
      rcases unlockPass_sound h3 with h2 | ⟨_, ht⟩
      · apply unlockPass_has_mono
        rcases unlockPass_sound h2 with h1 | ⟨_, ht⟩
        · apply unlockPass_has_mono
          rcases unlockPass_sound h1 with h0 | ⟨_, ht⟩
          · exact absurd h0 (List.not_mem_nil s)
          · rw [uaHas_eq_of (updateStreak_userAchievements _ _ _) u s.id]
            exact ht
        · exact ht
      · exact ht
    · exact ht
  · rw [achLogFold_log]
    exact List.mem_append_right _ (List.mem_map_of_mem _ hs)

lemma checkAch_complete (db : DB) (u rid : Nat) (dist : Rat) (at_ : PyDateTime) :
    ∀ u' a', uaHas ((checkAchievementsAfterSync db u rid dist at_).1) u' a' = true →
      uaHas db u' a' = true ∨
        (u' = u ∧ ∃ s ∈ (checkAchievementsAfterSync db u rid dist at_).2, s.id = a') := by
  intro u' a' h
  unfold checkAchievementsAfterSync at h ⊢
  dsimp only at h ⊢
  rw [uaHas_eq_of (achLogFold_userAchievements _ _ _) u' a'] at h
  rcases unlockPass_complete u' a' h with h3 | ⟨hu, s, hsin, hsid⟩
  · rcases unlockPass_complete u' a' h3 with h2 | ⟨hu, s, hsin, hsid⟩
    · rcases unlockPass_complete u' a' h2 with h1 | ⟨hu, s, hsin, hsid⟩
      · rw [uaHas_eq_of (updateStreak_userAchievements _ _ _) u' a'] at h1
        rcases unlockPass_complete u' a' h1 with h0 | ⟨hu, s, hsin, hsid⟩
        · exact Or.inl h0
        · exact Or.inr ⟨hu, s,
            unlockPass_mem_acc (unlockPass_mem_acc (unlockPass_mem_acc hsin)), hsid⟩
      · exact Or.inr ⟨hu, s, unlockPass_mem_acc (unlockPass_mem_acc hsin), hsid⟩
    · exact Or.inr ⟨hu, s, unlockPass_mem_acc hsin, hsid⟩
  · exact Or.inr ⟨hu, s, hsin, hsid⟩

lemma uaAtMostOne_congr {a b : DB} (h : a.userAchievements = b.userAchievements)
    (hb : uaAtMostOne b) : uaAtMostOne a := by
  intro u' a'
  rw [uaCount_eq_of h u' a']
  exact hb u' a'

lemma uaAtMostOne_syncOne (db : DB) (u : Nat) (now : PyDateTime) (p : RunPayload)
    (h : uaAtMostOne db) : uaAtMostOne ((syncOne db u now p).1) := by
  unfold syncOne
  split
  · exact h
  · dsimp only
    apply checkAch_count
    apply uaAtMostOne_congr (logActivity_userAchievements _ u "run" (some p.id) _)
    apply uaAtMostOne_congr (shoeStep_userAchievements u p _)
    apply uaAtMostOne_congr (checkEvent_userAchievements _ u p.id p.distanceKm p.kmSplits
      p.completedAt _)
    apply uaAtMostOne_congr (checkChallenge_userAchievements _ u p.id p.distanceKm p.kmSplits
      p.completedAt _)
    apply uaAtMostOne_congr (computePersonalBests_userAchievements _ u p.id p.kmSplits
      p.completedAt _)
    exact h

lemma uaAtMostOne_syncRuns (db : DB) (u : Nat) (now : PyDateTime)
    (payloads : List RunPayload) (h : uaAtMostOne db) :
    uaAtMostOne ((syncRuns db u now payloads).1) := by
  unfold syncRuns
  dsimp only
  exact foldl_preserve _ (fun (a : DB × Nat × List AchSummary) => uaAtMostOne a.1)
    (fun b p hp => uaAtMostOne_syncOne b.1 u now p hp) payloads (db, 0, []) h

lemma uaAtMostOne_applySyncs (db : DB) (batches : List SyncBatch) (h : uaAtMostOne db) :
    uaAtMostOne (applySyncs db batches) := by
  unfold applySyncs
  exact foldl_preserve _ uaAtMostOne
    (fun b batch hb => uaAtMostOne_syncRuns b batch.user batch.now batch.payloads hb)
    batches db h

/-- C4: starting from a store with at most one user-achievement row per
pair, any sequence of syncs keeps at most one row per pair; an achievement
summary is reported by the post-sync check exactly when its conditional
insert newly created the row for the acting user: every reported summary
was not unlocked before, is unlocked after, and is activity-logged, and
every pair unlocked after the check was either already unlocked before or
belongs to the acting user and is reported. -/
theorem c4_at_most_once_unlock (db : DB) (u rid : Nat) (distanceKm : Rat)
    (completedAt : PyDateTime) (hcount : uaAtMostOne db) :
    (∀ batches, uaAtMostOne (applySyncs db batches)) ∧
    (∀ s ∈ (checkAchievementsAfterSync db u rid distanceKm completedAt).2,
      uaHas db u s.id = false ∧
      uaHas (checkAchievementsAfterSync db u rid distanceKm completedAt).1 u s.id = true ∧
      (⟨u, "achievement", none, some (.achievement s.title s.icon s.tier)⟩ : ActivityRow)
        ∈ ((checkAchievementsAfterSync db u rid distanceKm completedAt).1).activityLog) ∧
    (∀ u' a',
      uaHas (checkAchievementsAfterSync db u rid distanceKm completedAt).1 u' a' = true →
      uaHas db u' a' = true ∨
        (u' = u ∧ ∃ s ∈ (checkAchievementsAfterSync db u rid distanceKm completedAt).2,
          s.id = a')) :=
  ⟨fun batches => uaAtMostOne_applySyncs db batches hcount,
   checkAch_newly db u rid distanceKm completedAt,
   checkAch_complete db u rid distanceKm completedAt⟩

/-- The first-run milestone definition row. -/
def firstRunDef : AchDef :=
  ⟨"milestone_first_run", "milestone", "First Steps", "Complete your first run", "star", 0,
    "bronze", 30⟩

/-- A store seeded with only the first-run milestone definition. -/
def dbAch : DB := { emptyDB with achievementDefs := [firstRunDef] }

/-- Witness for C4: after syncing one concrete run into the seeded store,
the first-run pair still has at most one row. -/
theorem c4_at_most_once_unlock_witness :
    uaAtMostOne (applySyncs dbAch [⟨7, ⟨100, 1, 2025⟩, [manualPayload]⟩]) :=
  (c4_at_most_once_unlock dbAch 7 1 5 ⟨100, 1, 2025⟩
    (fun u a => by simp [uaCount, dbAch, emptyDB])).1
    [⟨7, ⟨100, 1, 2025⟩, [manualPayload]⟩]

/-! ## C5: the order of the side-effect cascade -/

/-- Achievement evaluation as the specification claim orders it,
transcribed from the claim for comparison: the streak was already updated
in a separate earlier step, so the streak category reads the stored
longest streak instead of updating it; everything else follows check
achievements after sync. -/
def specEvaluateAchievements (db : DB) (u rid : Nat) (distanceKm : Rat)
    (completedAt : PyDateTime) : DB × List AchSummary :=
  let existingIds := (db.userAchievements.filter (fun r => r.userId == u)).map (·.achievementId)
  let definitions := List.insertionSort defSortLe db.achievementDefs
  let lifetime := lifetimeKm db u
  let r1 := unlockPass u rid completedAt (distanceCond existingIds lifetime) definitions db []
  let longest :=
    match streakFind db u with
    | some s => s.longestStreakDays
    | none => 0
  let r2 := unlockPass u rid completedAt (streakCond existingIds longest) definitions r1.1 r1.2
  let r3 := unlockPass u rid completedAt (perfCond existingIds (userPbTimes r2.1 u)) definitions
    r2.1 r2.2
  let r4 := unlockPass u rid completedAt (milestoneCond existingIds distanceKm) definitions
    r3.1 r3.2
  let db6 := r4.2.foldl
    (fun d a => logActivity d u "achievement" none (some (.achievement a.title a.icon a.tier)))
    r4.1
  (db6, r4.2)

/-- The per-run cascade in the order the specification claims: personal
bests, then streak update, then achievement evaluation, then challenge
matching, then event matching, then shoe mileage, then the run activity
entry, then collect. Transcribed from the claim for comparison with the
source order. -/
def claimOrderSyncOne (db : DB) (u : Nat) (now : PyDateTime) (p : RunPayload) :
    DB × Bool × List AchSummary :=
  let isEligible := p.dataSource == "bluetooth_ftms"
  if runExists db p.id then (db, false, [])
  else
    let db1 := { db with runs := db.runs ++ [runRowOfPayload u now p] }
    let db2 := computePersonalBests db1 u p.id p.kmSplits p.completedAt isEligible
    let rs := updateStreak db2 u p.completedAt.day
    let r := specEvaluateAchievements rs.1 u p.id p.distanceKm p.completedAt
    let db4 := checkChallengeParticipation r.1 u p.id p.distanceKm p.kmSplits p.completedAt
      isEligible
    let db5 := checkEventParticipation db4 u p.id p.distanceKm p.kmSplits p.completedAt
      isEligible
    let db6 :=
      match p.shoeId with
      | some sid => shoeAddMileage db5 sid u p.distanceKm
      | none => db5
    let db7 := logActivity db6 u "run" (some p.id) (some (.runLog p.distanceKm p.durationSeconds))
    (db7, true, r.2)

/-- C5 counterexample: syncing a first run into a store seeded with the
first-run milestone logs the run entry before the achievement entry,
while the claimed order would log the achievement entry first; the
resulting stores differ. -/
theorem c5_counterexample_cascade_order :
    ((syncRuns dbAch 7 ⟨100, 1, 2025⟩ [manualPayload]).1).activityLog.map (·.activityType)
      = ["run", "achievement"] ∧
    ((claimOrderSyncOne dbAch 7 ⟨100, 1, 2025⟩ manualPayload).1).activityLog.map
      (·.activityType) = ["achievement", "run"] ∧
    (syncRuns dbAch 7 ⟨100, 1, 2025⟩ [manualPayload]).1
      ≠ (claimOrderSyncOne dbAch 7 ⟨100, 1, 2025⟩ manualPayload).1 := by
  refine ⟨by decide, by decide, ?_⟩
  intro he
  have h1 : ((syncRuns dbAch 7 ⟨100, 1, 2025⟩ [manualPayload]).1).activityLog.map
      (·.activityType) = ["run", "achievement"] := by decide
  rw [he] at h1
  have h2 : ((claimOrderSyncOne dbAch 7 ⟨100, 1, 2025⟩ manualPayload).1).activityLog.map
      (·.activityType) = ["achievement", "run"] := by decide
  rw [h2] at h1
  exact absurd h1 (by decide)

lemma shoeStep_log (u : Nat) (p : RunPayload) (d : DB) :
    (match p.shoeId with
      | some sid => shoeAddMileage d sid u p.distanceKm
      | none => d).activityLog = d.activityLog := by
  cases p.shoeId with
  | none => rfl
  | some sid => exact shoeAddMileage_log d sid u p.distanceKm

lemma computePB_log_pb (db : DB) (u rid : Nat) (ks : Option (List Split)) (at_ : PyDateTime)
    (e : Bool) :
    ∃ es, (computePersonalBests db u rid ks at_ e).activityLog = db.activityLog ++ es ∧
      ∀ x ∈ es, x.activityType = "pb" := by
  unfold computePersonalBests
  split
  · exact ⟨[], by simp, by simp⟩
  · apply foldl_preserve (pbCategoryStep u rid ks at_)
      (fun d => ∃ es, d.activityLog = db.activityLog ++ es ∧ ∀ x ∈ es, x.activityType = "pb")
    · rintro b c ⟨es, hb, hall⟩
      show ∃ es, (pbCategoryStep u rid ks at_ b c).activityLog = db.activityLog ++ es ∧
        ∀ x ∈ es, x.activityType = "pb"
      unfold pbCategoryStep
      cases hft : fastestConsecutiveTime ks c.2 with
      | none => exact ⟨es, hb, hall⟩
      | some t =>
        dsimp only
        split
        · refine ⟨es ++ [⟨u, "pb", some rid, some (.pb c.1 t)⟩], ?_, ?_⟩
          · rw [logActivity_log, pbUpsert_log, hb, List.append_assoc]
          · intro x hx
            rcases List.mem_append.mp hx with h1 | h2
            · exact hall x h1
            · have : x = ⟨u, "pb", some rid, some (.pb c.1 t)⟩ := by simpa using h2
              rw [this]
        · exact ⟨es, by rw [pbUpsert_log]; exact hb, hall⟩
    · exact ⟨[], by simp, by simp⟩

lemma checkAch_log_ach (db : DB) (u rid : Nat) (dist : Rat) (at_ : PyDateTime) :
    ∃ es, ((checkAchievementsAfterSync db u rid dist at_).1).activityLog
        = db.activityLog ++ es ∧ ∀ x ∈ es, x.activityType = "achievement" := by
  unfold checkAchievementsAfterSync
  dsimp only
  rw [achLogFold_log, unlockPass_log, unlockPass_log, unlockPass_log, updateStreak_log,
    unlockPass_log]
  refine ⟨_, rfl, ?_⟩
  intro x hx
  obtain ⟨a, _, ha⟩ := List.mem_map.mp hx
  rw [← ha]

/-- C5 amended: for a freshly persisted run, the sync executes the cascade
in the source order (personal bests, challenge matching, event matching,
shoe mileage, the run activity entry, then achievement evaluation, which
internally updates the streak, and collection of new unlocks); in
particular the activity log receives any pb entries, then the run entry,
then any achievement entries. -/
theorem c5_cascade_order (db : DB) (u : Nat) (now : PyDateTime) (p : RunPayload)
    (h : ¬ runExists db p.id = true) :
    (syncRuns db u now [p]
      = (let db1 : DB := { db with runs := db.runs ++ [runRowOfPayload u now p] }
         let db2 := computePersonalBests db1 u p.id p.kmSplits p.completedAt
           (p.dataSource == "bluetooth_ftms")
         let db3 := checkChallengeParticipation db2 u p.id p.distanceKm p.kmSplits
           p.completedAt (p.dataSource == "bluetooth_ftms")
         let db4 := checkEventParticipation db3 u p.id p.distanceKm p.kmSplits
           p.completedAt (p.dataSource == "bluetooth_ftms")
         let db5 :=
           match p.shoeId with
           | some sid => shoeAddMileage db4 sid u p.distanceKm
           | none => db4
         let db6 := logActivity db5 u "run" (some p.id)
           (some (.runLog p.distanceKm p.durationSeconds))
         let r := checkAchievementsAfterSync db6 u p.id p.distanceKm p.completedAt
         (r.1, ⟨1, 0, r.2⟩))) ∧
    (∃ pbEntries achEntries,
      ((syncRuns db u now [p]).1).activityLog
        = db.activityLog ++ pbEntries
          ++ [⟨u, "run", some p.id, some (.runLog p.distanceKm p.durationSeconds)⟩]
          ++ achEntries ∧
      (∀ e ∈ pbEntries, e.activityType = "pb") ∧
      (∀ e ∈ achEntries, e.activityType = "achievement")) := by
  constructor
  · unfold syncRuns
    simp only [List.foldl_cons, List.foldl_nil]
    unfold syncOne
    rw [if_neg h]
    rfl
  · unfold syncRuns
    simp only [List.foldl_cons, List.foldl_nil]
    unfold syncOne
    rw [if_neg h]
    dsimp only
    obtain ⟨achE, hach, hallach⟩ := checkAch_log_ach
      (logActivity
        (match p.shoeId with
         | some sid => shoeAddMileage
            (checkEventParticipation
              (checkChallengeParticipation
                (computePersonalBests { db with runs := db.runs ++ [runRowOfPayload u now p] }
                  u p.id p.kmSplits p.completedAt (p.dataSource == "bluetooth_ftms"))
                u p.id p.distanceKm p.kmSplits p.completedAt (p.dataSource == "bluetooth_ftms"))
              u p.id p.distanceKm p.kmSplits p.completedAt (p.dataSource == "bluetooth_ftms"))
            sid u p.distanceKm
         | none =>
            checkEventParticipation
              (checkChallengeParticipation
                (computePersonalBests { db with runs := db.runs ++ [runRowOfPayload u now p] }
                  u p.id p.kmSplits p.completedAt (p.dataSource == "bluetooth_ftms"))
                u p.id p.distanceKm p.kmSplits p.completedAt (p.dataSource == "bluetooth_ftms"))
              u p.id p.distanceKm p.kmSplits p.completedAt (p.dataSource == "bluetooth_ftms"))
        u "run" (some p.id) (some (.runLog p.distanceKm p.durationSeconds)))
      u p.id p.distanceKm p.completedAt
    obtain ⟨pbE, hpb, hallpb⟩ := computePB_log_pb
      { db with runs := db.runs ++ [runRowOfPayload u now p] } u p.id p.kmSplits p.completedAt
      (p.dataSource == "bluetooth_ftms")
    refine ⟨pbE, achE, ?_, hallpb, hallach⟩
    rw [hach, logActivity_log, shoeStep_log, checkEvent_log, checkChallenge_log, hpb]

/-- Witness for C5 at the concrete first-run scenario. -/
theorem c5_cascade_order_witness :
    ∃ pbEntries achEntries,
      ((syncRuns dbAch 7 ⟨100, 1, 2025⟩ [manualPayload]).1).activityLog
        = dbAch.activityLog ++ pbEntries
          ++ [⟨7, "run", some 1, some (.runLog 5 1500)⟩] ++ achEntries ∧
      (∀ e ∈ pbEntries, e.activityType = "pb") ∧
      (∀ e ∈ achEntries, e.activityType = "achievement") :=
  (c5_cascade_order dbAch 7 ⟨100, 1, 2025⟩ manualPayload (by decide)).2

/-! ## Leaderboard queries (leaderboard_service.py) -/

/-- Python string-or fallback: an empty or missing string falls through. -/
def strOr (a : Option String) (b : String) : String :=
  match a with
  | some s => if s == "" then b else s
  | none => b

/-- The age-group bounds table. -/
def ageGroups : List (String × Int × Int) :=
  [("18-29", 18, 29), ("30-39", 30, 39), ("40-49", 40, 49), ("50-59", 50, 59),
   ("60+", 60, 200)]

/-- Python date.replace with a new year. -/
def replaceYear (t : PDate) (y : Int) : PDate := { t with y := y }

/-- The date-of-birth filter built from an age group, when the group is
known: born between today minus high plus one years and today minus low
years, compared as ISO date strings. -/
def ageGroupPred (ageGroup : String) (today : PDate) : Option (UserRow → Bool) :=
  match ageGroups.find? (fun g => g.1 == ageGroup) with
  | none => none
  | some g =>
      let earliest := replaceYear today (today.y - g.2.2 - 1)
      let latest := replaceYear today (today.y - g.2.1)
      some (fun usr =>
        match usr.dateOfBirth with
        | none => false
        | some dob => pdLeb earliest dob && pdLeb dob latest)

/-- The optional gender and age-group filters of a leaderboard query. -/
def passesDemographic (gender : Option String) (ageGroup : Option String) (today : PDate)
    (usr : UserRow) : Bool :=
  (match gender with
   | none => true
   | some g => usr.gender == some g) &&
  (match ageGroup with
   | none => true
   | some ag =>
      match ageGroupPred ag today with
      | none => true
      | some f => f usr)

/-- A user's leaderboard-eligible runs of a calendar year. -/
def userYearRuns (db : DB) (uid : Nat) (year : Int) : List RunRow :=
  db.runs.filter (fun r =>
    r.userId == uid && r.isLeaderboardEligible && r.completedAt.year == year)

/-- SQL sum of run distances. -/
def sumDistance (rs : List RunRow) : Rat :=
  rs.foldl (fun a r => a + r.distanceKm) 0

/-- Python round to one decimal place. -/
def roundTenth (q : Rat) : Rat := ((round (q * 10) : Int) : Rat) / 10

/-- One returned leaderboard entry. -/
structure LBEntry where
  rank : Nat
  userId : Nat
  displayName : String
  profilePhotoBase64 : Option String
  value : Rat
deriving DecidableEq

/-- A leaderboard response. -/
structure LBResult where
  entries : List LBEntry
  yourRank : Option Nat
  yourValue : Option Rat
  totalParticipants : Nat
deriving DecidableEq

/-- Descending order on grouped yearly totals. -/
def byDistDesc (a b : UserRow × Rat) : Prop := b.2 ≤ a.2

instance : DecidableRel byDistDesc := fun a b => inferInstanceAs (Decidable (b.2 ≤ a.2))

/-- Ascending order on joined best-time rows. -/
def byTimeAsc (a b : PBRow × UserRow) : Prop := a.1.timeSeconds ≤ b.1.timeSeconds

instance : DecidableRel byTimeAsc :=
  fun a b => inferInstanceAs (Decidable (a.1.timeSeconds ≤ b.1.timeSeconds))

/-- Embedding of get yearly distance leaderboard: entries are the
demographically filtered opted-in users with eligible runs in the year,
ordered by total distance and paginated; the self rank counts opted-in
users with a strictly greater total, without the demographic filters,
mirroring the source. -/
def getYearlyDistanceLeaderboard (db : DB) (u : Nat) (year : Int) (limit offset : Nat)
    (gender ageGroup : Option String) (today : PDate) : LBResult :=
  let grouped := (db.users.filter (fun usr =>
      usr.leaderboardOptIn && passesDemographic gender ageGroup today usr &&
        !(userYearRuns db usr.id year).isEmpty)).map
      (fun usr => (usr, sumDistance (userYearRuns db usr.id year)))
  let totalParticipants := grouped.length
  let sortedG := List.insertionSort byDistDesc grouped
  let page := (sortedG.drop offset).take limit
  let entries := page.enum.map (fun e =>
      ({ rank := offset + e.1 + 1, userId := e.2.1.id,
         displayName := strOr e.2.1.displayName (strOr e.2.1.name "Runner"),
         profilePhotoBase64 := e.2.1.profilePhotoBase64,
         value := roundTenth e.2.2 } : LBEntry))
  let userRuns := userYearRuns db u year
  let userTotal : Option Rat := if userRuns.isEmpty then none else some (sumDistance userRuns)
  match userTotal with
  | some t =>
      if 0 < t then
        let usersAhead := (db.users.filter (fun usr => usr.leaderboardOptIn &&
            !(userYearRuns db usr.id year).isEmpty &&
            decide (t < sumDistance (userYearRuns db usr.id year)))).length
        { entries := entries, yourRank := some (usersAhead + 1),
          yourValue := some (roundTenth t), totalParticipants := totalParticipants }
      else
        { entries := entries, yourRank := none, yourValue := none,
          totalParticipants := totalParticipants }
  | none =>
      { entries := entries, yourRank := none, yourValue := none,
        totalParticipants := totalParticipants }

/-- Embedding of get best time leaderboard: entries join personal bests
of the category with demographically filtered opted-in users, ordered by
time; the self rank counts rows of the category with a strictly lower
time joined to opted-in users, without the demographic filters, mirroring
the source. -/
def getBestTimeLeaderboard (db : DB) (u : Nat) (category : String) (limit offset : Nat)
    (gender ageGroup : Option String) (today : PDate) : LBResult :=
  let joined := (db.personalBests.filter (fun pb => pb.distanceCategory == category)).flatMap
      (fun pb => (db.users.filter (fun usr => usr.id == pb.userId && usr.leaderboardOptIn &&
          passesDemographic gender ageGroup today usr)).map (fun usr => (pb, usr)))
  let totalParticipants := joined.length
  let sortedR := List.insertionSort byTimeAsc joined
  let page := (sortedR.drop offset).take limit
  let entries := page.enum.map (fun e =>
      ({ rank := offset + e.1 + 1, userId := e.2.2.id,
         displayName := strOr e.2.2.displayName (strOr e.2.2.name "Runner"),
         profilePhotoBase64 := e.2.2.profilePhotoBase64,
         value := (e.2.1.timeSeconds : Rat) } : LBEntry))
  match pbLookup db u category with
  | some t =>
      if t == 0 then
        { entries := entries, yourRank := none, yourValue := none,
          totalParticipants := totalParticipants }
      else
        let usersAhead := (db.personalBests.filter (fun pb =>
            pb.distanceCategory == category && decide (pb.timeSeconds < t) &&
            db.users.any (fun usr => usr.id == pb.userId && usr.leaderboardOptIn))).length
        { entries := entries, yourRank := some (usersAhead + 1),
          yourValue := some ((t : Rat)), totalParticipants := totalParticipants }
  | none =>
      { entries := entries, yourRank := none, yourValue := none,
        totalParticipants := totalParticipants }

/-! ## C8: pagination and filter scope of the self rank -/

/-- Two users, one male and one female, both opted in, with 5K personal
bests of 200 and 100 seconds. -/
def dbTwoUsers : DB :=
  { emptyDB with
    users := [⟨0, none, none, none, none, some "male", true⟩,
              ⟨1, none, none, none, none, some "female", true⟩],
    personalBests := [⟨0, "5K", 200, ⟨100, 1, 2025⟩, 1⟩, ⟨1, "5K", 100, ⟨100, 1, 2025⟩, 2⟩] }

/-- C8 counterexample: querying the 5K best-time leaderboard with a male
gender filter, the slower male user receives rank 2 because the faster
female user is still counted by the self-rank query, although no user of
the filtered population is faster; the participant count does respect the
filter. -/
theorem c8_counterexample_rank_ignores_filters :
    (getBestTimeLeaderboard dbTwoUsers 0 "5K" 50 0 (some "male") none ⟨2025, 6, 1⟩).yourRank
      = some 2 ∧
    (getBestTimeLeaderboard dbTwoUsers 0 "5K" 50 0 (some "male") none
      ⟨2025, 6, 1⟩).totalParticipants = 1 ∧
    (dbTwoUsers.users.filter (fun usr => usr.leaderboardOptIn && !(usr.id == 0) &&
        passesDemographic (some "male") none ⟨2025, 6, 1⟩ usr &&
        (dbTwoUsers.personalBests.any (fun pb => pb.userId == usr.id &&
          pb.distanceCategory == "5K" && decide (pb.timeSeconds < 200))))).length = 0 := by
  refine ⟨by decide, by decide, by decide⟩

/-- C8 amended: limit and offset affect only the entries list; the self
rank, self value and participant total are pagination-independent in both
modes; however the self rank and self value are computed without the
gender and age-group filters, which only restrict the entries and the
participant total. -/
theorem c8_pagination_and_filter_scope (db : DB) (u : Nat) (year : Int) (category : String)
    (limit offset limit2 offset2 : Nat) (gender ageGroup : Option String) (today : PDate) :
    ((getYearlyDistanceLeaderboard db u year limit offset gender ageGroup today).yourRank
        = (getYearlyDistanceLeaderboard db u year limit2 offset2 gender ageGroup
            today).yourRank ∧
      (getYearlyDistanceLeaderboard db u year limit offset gender ageGroup today).yourValue
        = (getYearlyDistanceLeaderboard db u year limit2 offset2 gender ageGroup
            today).yourValue ∧
      (getYearlyDistanceLeaderboard db u year limit offset gender ageGroup
          today).totalParticipants
        = (getYearlyDistanceLeaderboard db u year limit2 offset2 gender ageGroup
            today).totalParticipants) ∧
    ((getYearlyDistanceLeaderboard db u year limit offset gender ageGroup today).yourRank
        = (getYearlyDistanceLeaderboard db u year limit offset none none today).yourRank ∧
      (getYearlyDistanceLeaderboard db u year limit offset gender ageGroup today).yourValue
        = (getYearlyDistanceLeaderboard db u year limit offset none none today).yourValue) ∧
    ((getBestTimeLeaderboard db u category limit offset gender ageGroup today).yourRank
        = (getBestTimeLeaderboard db u category limit2 offset2 gender ageGroup
            today).yourRank ∧
      (getBestTimeLeaderboard db u category limit offset gender ageGroup today).yourValue
        = (getBestTimeLeaderboard db u category limit2 offset2 gender ageGroup
            today).yourValue ∧
      (getBestTimeLeaderboard db u category limit offset gender ageGroup
          today).totalParticipants
        = (getBestTimeLeaderboard db u category limit2 offset2 gender ageGroup
            today).totalParticipants) ∧
    ((getBestTimeLeaderboard db u category limit offset gender ageGroup today).yourRank
        = (getBestTimeLeaderboard db u category limit offset none none today).yourRank ∧
      (getBestTimeLeaderboard db u category limit offset gender ageGroup today).yourValue
        = (getBestTimeLeaderboard db u category limit offset none none today).yourValue) := by
  have hy : ∀ (l o : Nat) (g a : Option String),
      (getYearlyDistanceLeaderboard db u year l o g a today).yourRank
        = (getYearlyDistanceLeaderboard db u year limit offset gender ageGroup
            today).yourRank ∧
      (getYearlyDistanceLeaderboard db u year l o g a today).yourValue
        = (getYearlyDistanceLeaderboard db u year limit offset gender ageGroup
            today).yourValue := by
    intro l o g a
    unfold getYearlyDistanceLeaderboard
    dsimp only
    by_cases hq : (userYearRuns db u year).isEmpty = true
    · rw [if_pos hq]
      refine ⟨?_, ?_⟩ <;> rfl
    · rw [if_neg hq]
      dsimp only
      by_cases hpos : 0 < sumDistance (userYearRuns db u year)
      · rw [if_pos hpos, if_pos hpos]
        refine ⟨?_, ?_⟩ <;> rfl
      · rw [if_neg hpos, if_neg hpos]
        refine ⟨?_, ?_⟩ <;> rfl
  have hyt : ∀ (l o : Nat),
      (getYearlyDistanceLeaderboard db u year l o gender ageGroup today).totalParticipants
        = (getYearlyDistanceLeaderboard db u year limit offset gender ageGroup
            today).totalParticipants := by
    intro l o
    unfold getYearlyDistanceLeaderboard
    dsimp only
    by_cases hq : (userYearRuns db u year).isEmpty = true
    · rw [if_pos hq]
    · rw [if_neg hq]
      dsimp only
      by_cases hpos : 0 < sumDistance (userYearRuns db u year)
      · rw [if_pos hpos, if_pos hpos]
      · rw [if_neg hpos, if_neg hpos]
  have hb : ∀ (l o : Nat) (g a : Option String),
      (getBestTimeLeaderboard db u category l o g a today).yourRank
        = (getBestTimeLeaderboard db u category limit offset gender ageGroup today).yourRank ∧
      (getBestTimeLeaderboard db u category l o g a today).yourValue
        = (getBestTimeLeaderboard db u category limit offset gender ageGroup
            today).yourValue := by
    intro l o g a
    unfold getBestTimeLeaderboard
    dsimp only
    cases ht : pbLookup db u category with
    | none => refine ⟨?_, ?_⟩ <;> rfl
    | some t =>
      dsimp only
      by_cases hz : (t == 0) = true
      · rw [if_pos hz, if_pos hz]
        refine ⟨?_, ?_⟩ <;> rfl
      · rw [if_neg hz, if_neg hz]
        refine ⟨?_, ?_⟩ <;> rfl
  have hbt : ∀ (l o : Nat),
      (getBestTimeLeaderboard db u category l o gender ageGroup today).totalParticipants
        = (getBestTimeLeaderboard db u category limit offset gender ageGroup
            today).totalParticipants := by
    intro l o
    unfold getBestTimeLeaderboard
    dsimp only
    cases ht : pbLookup db u category with
    | none => rfl
    | some t =>
      dsimp only
      by_cases hz : (t == 0) = true
      · rw [if_pos hz, if_pos hz]
      · rw [if_neg hz, if_neg hz]
  refine ⟨⟨?_, ?_, ?_⟩, ⟨?_, ?_⟩, ⟨?_, ?_, ?_⟩, ⟨?_, ?_⟩⟩
  · exact ((hy limit2 offset2 gender ageGroup).1).symm
  · exact ((hy limit2 offset2 gender ageGroup).2).symm
  · exact (hyt limit2 offset2).symm
  · exact ((hy limit offset none none).1).symm
  · exact ((hy limit offset none none).2).symm
  · exact ((hb limit2 offset2 gender ageGroup).1).symm
  · exact ((hb limit2 offset2 gender ageGroup).2).symm
  · exact (hbt limit2 offset2).symm
  · exact ((hb limit offset none none).1).symm
  · exact ((hb limit offset none none).2).symm

/-! ## C7: the self-rank definition -/

lemma yearly_yourRank_eq (db : DB) (u : Nat) (year : Int) (limit offset : Nat)
    (gender ageGroup : Option String) (today : PDate)
    (hne : (userYearRuns db u year).isEmpty = false)
    (hpos : 0 < sumDistance (userYearRuns db u year)) :
    (getYearlyDistanceLeaderboard db u year limit offset gender ageGroup today).yourRank
      = some ((db.users.filter (fun usr => usr.leaderboardOptIn &&
          !(userYearRuns db usr.id year).isEmpty &&
          decide (sumDistance (userYearRuns db u year)
            < sumDistance (userYearRuns db usr.id year)))).length + 1) := by
  unfold getYearlyDistanceLeaderboard
  dsimp only
  rw [if_neg (by simp [hne])]
  dsimp only
  rw [if_pos hpos]

lemma sumDistance_nil : sumDistance [] = 0 := rfl

lemma yearly_count_eq (db : DB) (u : Nat) (year : Int)
    (hpos : 0 < sumDistance (userYearRuns db u year)) :
    (db.users.filter (fun usr => usr.leaderboardOptIn &&
        !(userYearRuns db usr.id year).isEmpty &&
        decide (sumDistance (userYearRuns db u year)
          < sumDistance (userYearRuns db usr.id year)))).length
      = (db.users.filter (fun usr => usr.leaderboardOptIn && !(usr.id == u) &&
          decide (sumDistance (userYearRuns db u year)
            < sumDistance (userYearRuns db usr.id year)))).length := by
  congr 1
  apply List.filter_congr
  intro usr _
  by_cases hid : usr.id = u
  · have h1 : decide (sumDistance (userYearRuns db u year)
        < sumDistance (userYearRuns db usr.id year)) = false := by
      rw [hid]
      simp
    simp [h1, hid]
  · by_cases hlt : sumDistance (userYearRuns db u year)
        < sumDistance (userYearRuns db usr.id year)
    · have hne2 : (userYearRuns db usr.id year).isEmpty = false := by
        cases hE : (userYearRuns db usr.id year).isEmpty with
        | false => rfl
        | true =>
          exfalso
          have hnil : userYearRuns db usr.id year = [] := by
            simpa using hE
          rw [hnil, sumDistance_nil] at hlt
          exact absurd (lt_trans hpos hlt) (lt_irrefl 0)
      simp [hne2, hid, hlt]
    · simp [hlt]

lemma bestTime_yourRank_eq (db : DB) (u : Nat) (category : String) (limit offset : Nat)
    (gender ageGroup : Option String) (today : PDate) (t : Int)
    (hfind : pbLookup db u category = some t) (htz : (t == 0) = false) :
    (getBestTimeLeaderboard db u category limit offset gender ageGroup today).yourRank
      = some ((db.personalBests.filter (fun pb =>
          pb.distanceCategory == category && decide (pb.timeSeconds < t) &&
          db.users.any (fun usr => usr.id == pb.userId && usr.leaderboardOptIn))).length
        + 1) := by
  unfold getBestTimeLeaderboard
  dsimp only
  rw [hfind]
  dsimp only
  rw [if_neg (by simp [htz])]

lemma pairsNodup_userIdNodup (category : String) :
    ∀ l : List PBRow, (∀ r ∈ l, r.distanceCategory = category) →
      (l.map (fun r => (r.userId, r.distanceCategory))).Nodup →
      (l.map (·.userId)).Nodup := by
  intro l
  induction l with
  | nil => intro _ _; exact List.nodup_nil
  | cons r rest ih =>
    intro hcat hnd
    rw [List.map_cons, List.nodup_cons] at hnd ⊢
    refine ⟨?_, ih (fun x hx => hcat x (List.mem_cons_of_mem r hx)) hnd.2⟩
    intro hmem
    obtain ⟨x, hx, hxid⟩ := List.mem_map.mp hmem
    apply hnd.1
    apply List.mem_map.mpr
    refine ⟨x, hx, ?_⟩
    rw [hcat x (List.mem_cons_of_mem r hx), hcat r (List.mem_cons_self r rest), hxid]

lemma pb_key_unique (db : DB) (u : Nat) (category : String) {r : PBRow}
    (hP : (db.personalBests.map (fun x => (x.userId, x.distanceCategory))).Nodup)
    (hfind : pbFind db u category = some r) :
    ∀ pb ∈ db.personalBests, pb.userId = u → pb.distanceCategory = category → pb = r := by
  intro pb hpb hpu hpc
  have hrmem : r ∈ db.personalBests := List.mem_of_find?_eq_some hfind
  have hrpred := List.find?_some hfind
  have hr' : r.userId = u ∧ r.distanceCategory = category := (pbKeyPred_true_iff u category r).mp hrpred
  exact List.inj_on_of_nodup_map hP hpb hrmem
    (by rw [hpu, hpc, hr'.1, hr'.2])

lemma bestTime_count_eq (db : DB) (u : Nat) (category : String) (t : Int)
    (hU : (db.users.map (·.id)).Nodup)
    (hP : (db.personalBests.map (fun x => (x.userId, x.distanceCategory))).Nodup)
    (hself : ∀ pb ∈ db.personalBests, pb.userId = u → pb.distanceCategory = category →
      pb.timeSeconds = t) :
    (db.personalBests.filter (fun pb =>
        pb.distanceCategory == category && decide (pb.timeSeconds < t) &&
        db.users.any (fun usr => usr.id == pb.userId && usr.leaderboardOptIn))).length
      = (db.users.filter (fun usr => usr.leaderboardOptIn && !(usr.id == u) &&
          (db.personalBests.any (fun pb => pb.userId == usr.id &&
            pb.distanceCategory == category && decide (pb.timeSeconds < t))))).length := by
  have hA : ((db.personalBests.filter (fun pb =>
      pb.distanceCategory == category && decide (pb.timeSeconds < t) &&
      db.users.any (fun usr => usr.id == pb.userId && usr.leaderboardOptIn))).map
        (·.userId)).Nodup := by
    apply pairsNodup_userIdNodup category
    · intro x hx
      have hpred := (List.mem_filter.mp hx).2
      simp only [Bool.and_eq_true, beq_iff_eq] at hpred
      exact hpred.1.1
    · exact ((List.filter_sublist _).map _).nodup hP
  have hB : ((db.users.filter (fun usr => usr.leaderboardOptIn && !(usr.id == u) &&
      (db.personalBests.any (fun pb => pb.userId == usr.id &&
        pb.distanceCategory == category && decide (pb.timeSeconds < t))))).map
        (·.id)).Nodup :=
    ((List.filter_sublist _).map _).nodup hU
  have hiff : ∀ x : Nat,
      x ∈ (db.personalBests.filter (fun pb =>
        pb.distanceCategory == category && decide (pb.timeSeconds < t) &&
        db.users.any (fun usr => usr.id == pb.userId && usr.leaderboardOptIn))).map
          (·.userId)
      ↔ x ∈ (db.users.filter (fun usr => usr.leaderboardOptIn && !(usr.id == u) &&
          (db.personalBests.any (fun pb => pb.userId == usr.id &&
            pb.distanceCategory == category && decide (pb.timeSeconds < t))))).map
            (·.id) := by
    intro x
    constructor
    · intro hx
      obtain ⟨pb, hpbf, hpbid⟩ := List.mem_map.mp hx
      obtain ⟨hpbmem, hpred⟩ := List.mem_filter.mp hpbf
      simp only [Bool.and_eq_true, beq_iff_eq, decide_eq_true_eq, List.any_eq_true]
        at hpred
      obtain ⟨⟨hcat, hlt⟩, usr, husr, hpu2, hopt2⟩ := hpred
      apply List.mem_map.mpr
      refine ⟨usr, ?_, by rw [hpu2, hpbid]⟩
      apply List.mem_filter.mpr
      refine ⟨husr, ?_⟩
      simp only [Bool.and_eq_true, beq_iff_eq, decide_eq_true_eq, List.any_eq_true,
        Bool.not_eq_true]
      refine ⟨⟨hopt2, ?_⟩, pb, hpbmem, ⟨hpu2.symm, hcat⟩, hlt⟩
      cases hq : (usr.id == u) with
      | false => rfl
      | true =>
        exfalso
        have hqu : usr.id = u := by simpa using hq
        have : pb.timeSeconds = t :=
          hself pb hpbmem (by rw [← hpu2, hqu]) hcat
        rw [this] at hlt
        exact lt_irrefl t hlt
    · intro hx
      obtain ⟨usr, husrf, husrid⟩ := List.mem_map.mp hx
      obtain ⟨husrmem, hpred⟩ := List.mem_filter.mp husrf
      simp only [Bool.and_eq_true, beq_iff_eq, decide_eq_true_eq, List.any_eq_true,
        Bool.not_eq_true] at hpred
      obtain ⟨⟨hopt, _⟩, pb, hpbmem, ⟨hpu, hcat⟩, hlt⟩ := hpred
      apply List.mem_map.mpr
      refine ⟨pb, ?_, by rw [hpu, husrid]⟩
      apply List.mem_filter.mpr
      refine ⟨hpbmem, ?_⟩
      simp only [Bool.and_eq_true, beq_iff_eq, decide_eq_true_eq, List.any_eq_true]
      exact ⟨⟨hcat, hlt⟩, usr, husrmem, ⟨hpu.symm, hopt⟩⟩
  have hperm := (List.perm_ext_iff_of_nodup hA hB).mpr hiff
  have := hperm.length_eq
  simpa using this

/-- C7: in the cumulative-distance mode the self rank is one plus the
number of other opted-in users whose eligible yearly total strictly
exceeds the querying user's own; in the best-time mode it is one plus the
number of other opted-in users whose stored personal best in the category
is strictly lower; consequently an opted-in user with the strictly
fastest personal best receives rank one. -/
theorem c7_self_rank (db : DB) (today : PDate) :
    (∀ (u : Nat) (year : Int) (limit offset : Nat) (gender ageGroup : Option String),
      (userYearRuns db u year).isEmpty = false →
      0 < sumDistance (userYearRuns db u year) →
      (getYearlyDistanceLeaderboard db u year limit offset gender ageGroup today).yourRank
        = some (1 + (db.users.filter (fun usr => usr.leaderboardOptIn && !(usr.id == u) &&
            decide (sumDistance (userYearRuns db u year)
              < sumDistance (userYearRuns db usr.id year)))).length)) ∧
    (∀ (u : Nat) (category : String) (limit offset : Nat) (gender ageGroup : Option String)
      (t : Int),
      (db.users.map (·.id)).Nodup →
      (db.personalBests.map (fun x => (x.userId, x.distanceCategory))).Nodup →
      pbLookup db u category = some t → (t == 0) = false →
      (getBestTimeLeaderboard db u category limit offset gender ageGroup today).yourRank
        = some (1 + (db.users.filter (fun usr => usr.leaderboardOptIn && !(usr.id == u) &&
            (db.personalBests.any (fun pb => pb.userId == usr.id &&
              pb.distanceCategory == category && decide (pb.timeSeconds < t))))).length)) ∧
    (∀ (u : Nat) (category : String) (limit offset : Nat) (gender ageGroup : Option String)
      (t : Int),
      (db.personalBests.map (fun x => (x.userId, x.distanceCategory))).Nodup →
      pbLookup db u category = some t → (t == 0) = false →
      (∀ pb ∈ db.personalBests, pb.distanceCategory = category → ¬ pb.userId = u →
        t < pb.timeSeconds) →
      (getBestTimeLeaderboard db u category limit offset gender ageGroup today).yourRank
        = some 1) := by
  refine ⟨?_, ?_, ?_⟩
  · intro u year limit offset gender ageGroup hne hpos
    rw [yearly_yourRank_eq db u year limit offset gender ageGroup today hne hpos,
      yearly_count_eq db u year hpos, Nat.add_comm]
  · intro u category limit offset gender ageGroup t hU hP hfind htz
    obtain ⟨r, hr, hrt⟩ : ∃ r, pbFind db u category = some r ∧ r.timeSeconds = t := by
      unfold pbLookup at hfind
      cases hx : pbFind db u category with
      | none => rw [hx] at hfind; exact absurd hfind (by simp)
      | some r0 => rw [hx] at hfind; exact ⟨r0, rfl, by simpa using hfind⟩
    have hself : ∀ pb ∈ db.personalBests, pb.userId = u → pb.distanceCategory = category →
        pb.timeSeconds = t := by
      intro pb hpb hpu hpc
      rw [pb_key_unique db u category hP hr pb hpb hpu hpc]
      exact hrt
    rw [bestTime_yourRank_eq db u category limit offset gender ageGroup today t hfind htz,
      bestTime_count_eq db u category t hU hP hself, Nat.add_comm]
  · intro u category limit offset gender ageGroup t hP hfind htz hfast
    obtain ⟨r, hr, hrt⟩ : ∃ r, pbFind db u category = some r ∧ r.timeSeconds = t := by
      unfold pbLookup at hfind
      cases hx : pbFind db u category with
      | none => rw [hx] at hfind; exact absurd hfind (by simp)
      | some r0 => rw [hx] at hfind; exact ⟨r0, rfl, by simpa using hfind⟩
    have hself : ∀ pb ∈ db.personalBests, pb.userId = u → pb.distanceCategory = category →
        pb.timeSeconds = t := by
      intro pb hpb hpu hpc
      rw [pb_key_unique db u category hP hr pb hpb hpu hpc]
      exact hrt
    rw [bestTime_yourRank_eq db u category limit offset gender ageGroup today t hfind htz]
    have hzero : (db.personalBests.filter (fun pb =>
        pb.distanceCategory == category && decide (pb.timeSeconds < t) &&
        db.users.any (fun usr => usr.id == pb.userId && usr.leaderboardOptIn))).length
        = 0 := by
      rw [List.length_eq_zero]
      apply List.filter_eq_nil_iff.mpr
      intro pb hpb hpred
      simp only [Bool.and_eq_true, beq_iff_eq, decide_eq_true_eq] at hpred
      obtain ⟨⟨hcat, hlt⟩, _⟩ := hpred
      by_cases hpu : pb.userId = u
      · have := hself pb hpb hpu hcat
        rw [this] at hlt
        exact lt_irrefl t hlt
      · exact absurd hlt (not_lt.mpr (le_of_lt (hfast pb hpb hcat hpu)))
    rw [hzero]

/-- Witness for C7 at the concrete two-user store: the slower user is
ranked behind the one faster opted-in user. -/
theorem c7_self_rank_witness :
    (getBestTimeLeaderboard dbTwoUsers 0 "5K" 50 0 none none ⟨2025, 6, 1⟩).yourRank
      = some (1 + (dbTwoUsers.users.filter (fun usr => usr.leaderboardOptIn &&
          !(usr.id == 0) &&
          (dbTwoUsers.personalBests.any (fun pb => pb.userId == usr.id &&
            pb.distanceCategory == "5K" && decide (pb.timeSeconds < 200))))).length) :=
  (c7_self_rank dbTwoUsers ⟨2025, 6, 1⟩).2.1 0 "5K" 50 0 none none 200 (by decide) (by decide)
    (by decide) (by decide)

end Stride
